import Mathlib

/-!
Verification of the tic-tac-toe engine.

The development shallowly embeds two implementations found in the repository:

* the bitboard implementation (file tic_tac_toe.py): class `State` stores one
  9-bit mask per player (`bits[0]` for X, `bits[1]` for O), `has_ended` scans
  the eight winning masks in a fixed order, `open_tiles` lists the free cells,
  and the free function `minimax` searches the game tree;
* the array implementation (file tic_tac_toe/game.py): class `Board` stores a
  3x3 array of tiles, `Board.set_tile` performs the bounds check, and
  `Game.is_win` / `Game.is_draw` answer the outcome queries.

Machine integers (numpy uint16) are modelled as `Nat`; every mask that occurs
holds in 16 bits, so no wrap-around is lost in the translation.  Python
exceptions are modelled with `Except`: each distinct raise site gets a value of
`MoveError`.  The numpy `IndexError` that escapes `Board.set_tile` when an
index equals 3 is modelled by the dedicated value `MoveError.indexError`,
distinct from the guarded `MoveError.outOfBounds`.
-/

set_option maxRecDepth 10000

/-- Enum Piece of tic_tac_toe.py: X = 0, O = 1. -/
inductive Piece where
  | X
  | O
deriving DecidableEq

/-- Enum Score of tic_tac_toe.py: Win = 1 (X won), Draw = 0, Lose = -1 (O won). -/
inductive Score where
  | Win
  | Draw
  | Lose
deriving DecidableEq

/-- Numeric value of a Score, the `.value` of the Python enum. -/
def Score.value : Score → Int
  | .Win => 1
  | .Draw => 0
  | .Lose => -1

/-- Bitboard state of tic_tac_toe.py: `bits[0]` is the X channel, `bits[1]`
the O channel, plus the side to move.  The bookkeeping fields `is_game_on` and
`score` of the Python class are only written by the interactive `Game` wrapper
and are not part of the search state, so they are omitted. -/
structure State where
  bitsX : Nat
  bitsO : Nat
  current_piece_turn : Piece
deriving DecidableEq

/-- Channel selector, the Python indexing `self.bits[piece.value]`. -/
def State.bits (s : State) : Piece → Nat
  | .X => s.bitsX
  | .O => s.bitsO

/-- Mask of the nine valid cells, the `_valid_bitmask` attribute. -/
def valid_bitmask : Nat := 0b000000111111111

/-- Typed rendering of the RuntimeErrors raised by the two implementations.
`indexError` stands for the numpy IndexError that is not raised by the code
itself but escapes from an array access with an index equal to 3. -/
inductive MoveError where
  | cellOccupied
  | outOfBounds
  | indexError
deriving DecidableEq

/-- Mutation performed by the else branch of `State.set_square`: set the bit
`2 ** ind` in the channel of `piece`. -/
def State.place_bit (s : State) (ind : Nat) (piece : Piece) : State :=
  match piece with
  | .X => { s with bitsX := s.bitsX ||| 2 ^ ind }
  | .O => { s with bitsO := s.bitsO ||| 2 ^ ind }

/-- Method `State.set_square` of tic_tac_toe.py.  The guard tests only the
channel of the piece being placed: `if self.bits[piece.value] & bb_tile`. -/
def State.set_square (s : State) (ind : Nat) (piece : Piece) : Except MoveError State :=
  if s.bits piece &&& 2 ^ ind != 0 then .error .cellOccupied
  else .ok (s.place_bit ind piece)

/-- Class Move of tic_tac_toe.py: a linear cell index paired with a piece. -/
structure Move where
  ind : Nat
  piece : Piece
deriving DecidableEq

/-- Row of a move, computed by `np.unravel_index` in the Python constructor. -/
def Move.row (m : Move) : Nat := m.ind / 3

/-- Column of a move, the second component of `np.unravel_index`. -/
def Move.col (m : Move) : Nat := m.ind % 3

/-- Turn alternation of `State.do_move`. -/
def Piece.flip : Piece → Piece
  | .X => .O
  | .O => .X

/-- Method `State.do_move`: place the bit of the move and alternate the side
to move.  Inside `minimax` every move comes from `open_tiles`, so the
occupancy guard of `set_square` cannot fire there; the lemma
`set_square_ok_of_free` below records that the guarded call returns exactly
this state. -/
def State.do_move (s : State) (m : Move) : State :=
  let s2 := s.place_bit m.ind m.piece
  { s2 with current_piece_turn := s.current_piece_turn.flip }

/-- Tuple `win_states` of `State.has_ended`, in source order: three rows,
three columns (right to left), the two diagonals. -/
def win_states : List Nat :=
  [0b0000000000000111,
   0b0000000000111000,
   0b0000000111000000,
   0b0000000100100100,
   0b0000000010010010,
   0b0000000001001001,
   0b0000000100010001,
   0b0000000001010100]

/-- Scanning loop of `State.has_ended`: for each mask, the X channel is tested
before the O channel, and the first full mask decides. -/
def winScan (x o : Nat) : List Nat → Option Score
  | [] => none
  | w :: ws =>
    if x &&& w == w then some .Win
    else if o &&& w == w then some .Lose
    else winScan x o ws

/-- Method `State.is_draw`: all nine valid cells are occupied. -/
def State.is_draw (s : State) : Bool :=
  ((s.bitsX ||| s.bitsO) &&& 0b000000111111111) == 0b000000111111111

/-- Method `State.has_ended`.  The Python method returns the pair
`(False, None)` or `(True, score)`; the two components carry the same
information as a single `Option Score`, which is the encoding used here:
`none` means the game goes on. -/
def State.has_ended (s : State) : Option Score :=
  match winScan s.bitsX s.bitsO win_states with
  | some sc => some sc
  | none => if s.is_draw then some .Draw else none

/-- Method `State.open_tiles`: indices of the free cells, ascending. -/
def State.open_tiles (s : State) : List Nat :=
  let open_tiles_bits := ((s.bitsX ||| s.bitsO) ^^^ 65535) &&& valid_bitmask
  (List.range 9).filter (fun n => ((open_tiles_bits >>> n) &&& 1) != 0)

/-- Moves offered to a given mark: one move per open tile, in tile order.
This is the `legal_moves` operation of the specification; `minimax`
instantiates the mark with the side to move. -/
def legal_moves (s : State) (mark : Piece) : List Move :=
  (s.open_tiles).map (fun i => ⟨i, mark⟩)

/-- List `moves_list` built at the top of the recursive case of `minimax`. -/
def moves_list (s : State) : List Move :=
  legal_moves s s.current_piece_turn

/-- Search values.  The Python code mixes the integer scores with the floats
`-inf` and `inf` used to seed the loops; `Val` reproduces that ordered value
space exactly. -/
inductive Val where
  | ninf
  | num (n : Int)
  | pinf
deriving DecidableEq

/-- Strict comparison on search values, the Python `<` between scores and
infinities. -/
def Val.blt : Val → Val → Bool
  | .ninf, .ninf => false
  | .ninf, _ => true
  | .num _, .ninf => false
  | .num a, .num b => decide (a < b)
  | .num _, .pinf => true
  | .pinf, _ => false

/-- Maximizing loop of `minimax`: the running pair (best_move, value) is
replaced only when the child value is strictly greater. -/
def maxLoop (f : Move → Val) : List Move → Option Move → Val → Option Move × Val
  | [], bm, v => (bm, v)
  | m :: ms, bm, v =>
    let cur := f m
    if v.blt cur then maxLoop f ms (some m) cur else maxLoop f ms bm v

/-- Minimizing loop of `minimax`: strict less-than replacement. -/
def minLoop (f : Move → Val) : List Move → Option Move → Val → Option Move × Val
  | [], bm, v => (bm, v)
  | m :: ms, bm, v =>
    let cur := f m
    if cur.blt v then minLoop f ms (some m) cur else minLoop f ms bm v

/-- Function `minimax` of tic_tac_toe.py.  The Python function recurses on
states with strictly fewer open tiles and therefore terminates; the embedding
makes that bound explicit with a fuel argument that the callers instantiate
with 9, an upper bound for every board.  When the fuel runs out on a
non-terminal position the search returns the neutral value 0, the cutoff
convention of the specification; with fuel at least the number of open tiles
the cutoff is never reached. -/
def minimax (fuel : Nat) (s : State) (maximizing_player : Bool) : Option Move × Val :=
  match s.has_ended with
  | some sc => (none, .num sc.value)
  | none =>
    match fuel with
    | 0 => (none, .num 0)
    | f + 1 =>
      if maximizing_player then
        maxLoop (fun m => (minimax f (s.do_move m) false).2) (moves_list s) none .ninf
      else
        minLoop (fun m => (minimax f (s.do_move m) true).2) (moves_list s) none .pinf

/-- Board with no marks, X to move. -/
def emptyState : State := ⟨0, 0, .X⟩

/-- Board of the worked example: the legal sequence X at cell 4 (row 1, col 1),
O at cell 0 (0,0), X at cell 3 (1,0), O at cell 1 (0,1), X to move. -/
def forkState : State :=
  State.do_move (State.do_move (State.do_move (State.do_move emptyState ⟨4, .X⟩) ⟨0, .O⟩) ⟨3, .X⟩) ⟨1, .O⟩

/-! Array implementation of tic_tac_toe/game.py. -/

/-- Enum Tile of game.py: X = 0, O = 1, Empty = 2 (cell contents). -/
inductive Tile where
  | X
  | O
  | Empty
deriving DecidableEq

/-- Tile written by `Board.set_tile` for a piece (the enum values match). -/
def Tile.ofPiece : Piece → Tile
  | .X => .X
  | .O => .O

/-- Class Board of game.py with the fixed 3x3 shape used by Game: cell (y, x)
is `self._board[y, x]`. -/
structure BoardArr where
  cells : Fin 3 → Fin 3 → Tile

/-- Class Move of game.py: column x, row y and the piece; the coordinates are
unchecked Python ints. -/
structure MoveArr where
  x : Int
  y : Int
  piece : Piece

/-- Board produced by `Board.reset`: all cells Empty. -/
def boardEmpty : BoardArr := ⟨fun _ _ => .Empty⟩

/-- Method `Board.set_tile`.  The source guard is
`move.x > self.cols or move.y > self.rows or move.x < 0 or move.y < 0` with
rows = cols = 3; a coordinate equal to 3 passes this guard and the subsequent
numpy store `self._board[move.y, move.x]` raises an IndexError, modelled here
by `MoveError.indexError`. -/
def BoardArr.set_tile (b : BoardArr) (m : MoveArr) : Except MoveError BoardArr :=
  if m.x > 3 || m.y > 3 || m.x < 0 || m.y < 0 then .error .outOfBounds
  else if m.x.toNat < 3 && m.y.toNat < 3 then
    .ok ⟨fun y x =>
      if y.val == m.y.toNat && x.val == m.x.toNat then Tile.ofPiece m.piece else b.cells y x⟩
  else .error .indexError

/-- Method `Game.is_win` of game.py for a board and a piece, with the numpy
reductions unrolled over the fixed 3x3 shape.  In the source, `rows_win`
reduces along axis 0 and therefore detects full columns while `cols_win`
detects full rows; the union of the eight checks is unchanged by that naming
and is reproduced literally here.  `diag2_win` is the diagonal of the
left-right flipped board, the cells (0,2), (1,1), (2,0). -/
def BoardArr.is_win (b : BoardArr) (p : Piece) : Bool :=
  let q : Fin 3 → Fin 3 → Bool := fun y x => b.cells y x == Tile.ofPiece p
  let colAll : Fin 3 → Bool := fun x => q 0 x && q 1 x && q 2 x
  let rowAll : Fin 3 → Bool := fun y => q y 0 && q y 1 && q y 2
  let rows_win := colAll 0 || colAll 1 || colAll 2
  let cols_win := rowAll 0 || rowAll 1 || rowAll 2
  let diag1_win := q 0 0 && q 1 1 && q 2 2
  let diag2_win := q 0 2 && q 1 1 && q 2 0
  rows_win || cols_win || diag1_win || diag2_win

/-- Method `Game.is_draw` of game.py: no cell is Empty, the numpy any
reduction unrolled over the nine cells. -/
def BoardArr.is_draw (b : BoardArr) : Bool :=
  let e : Fin 3 → Fin 3 → Bool := fun y x => b.cells y x == Tile.Empty
  !(e 0 0 || e 0 1 || e 0 2 || e 1 0 || e 1 1 || e 1 2 || e 2 0 || e 2 1 || e 2 2)

/-- Game outcome of the specification. -/
inductive GameOutcome where
  | Win (p : Piece)
  | Draw
  | StillPlaying
deriving DecidableEq

/-- Outcome query of the array implementation, composed from `Game.is_win`
for each mark and `Game.is_draw`, the winner of the mover checked first in
`make_move` order (X before O). -/
def outcomeArr (b : BoardArr) : GameOutcome :=
  if b.is_win .X then .Win .X
  else if b.is_win .O then .Win .O
  else if b.is_draw then .Draw
  else .StillPlaying

/-- Outcome query of the bitboard implementation, reading `has_ended` through
the documented meaning of Score (Win means X won, Lose means O won). -/
def outcomeBits (s : State) : GameOutcome :=
  match s.has_ended with
  | some .Win => .Win .X
  | some .Lose => .Win .O
  | some .Draw => .Draw
  | none => .StillPlaying

/-- Array board carrying the marks of a pair of bit masks: cell (y, x) shows
the mark whose bit 3 * y + x is set, X shown on overlap. -/
def arrOf (x o : Nat) : BoardArr :=
  ⟨fun y xc =>
    if x.testBit (3 * y.val + xc.val) then .X
    else if o.testBit (3 * y.val + xc.val) then .O
    else .Empty⟩

/-! Strategy certificates used to pin the value of the full search without
evaluating the half-million node game tree: a strategy tree fixes the reply
of one player, the checker walks every move of the other player. -/

/-- Strategy trees: `splay mv bs` commits the strategy player to the move
`mv` and continues with the branch chain `bs`; `sbr j t rest` handles the
opponent move `j` with subtree `t`, the remaining branches in `rest`. -/
inductive Strat where
  | snil
  | sbr (omove : Nat) (t : Strat) (rest : Strat)
  | splay (mv : Nat) (bs : Strat)

/-- Lookup of the branch for an opponent move in a branch chain. -/
def findStrat : Strat → Nat → Option Strat
  | .sbr j t rest, i => if j == i then some t else findStrat rest i
  | _, _ => none

/-- Committed move and continuation of a strategy node, if any. -/
def stratPlay : Strat → Option (Nat × Strat)
  | .splay mv bs => some (mv, bs)
  | _ => none

/-- Certificate checker for a lower bound: playing the committed moves on the
maximizing turns and surviving every opponent move keeps the final score at
least c.  The flag side is true when the strategy player (the maximizer) is
to move, matching the maximizing flag of the search at the same position. -/
def chkGE (c : Int) : Nat → Strat → Bool → State → Bool
  | fuel, st, side, s =>
    match s.has_ended with
    | some sc => decide (c ≤ sc.value)
    | none =>
      match fuel with
      | 0 => false
      | f + 1 =>
        if side then
          match stratPlay st with
          | some (mv, bs) =>
            (s.open_tiles).contains mv && chkGE c f bs false (s.do_move ⟨mv, s.current_piece_turn⟩)
          | none => false
        else
          (s.open_tiles).all fun j =>
            match findStrat st j with
            | some t => chkGE c f t true (s.do_move ⟨j, s.current_piece_turn⟩)
            | none => false

/-- Certificate checker for an upper bound: here the strategy player is the
minimizer, so side true corresponds to the maximizing flag false of the
search at the same position. -/
def chkLE (c : Int) : Nat → Strat → Bool → State → Bool
  | fuel, st, side, s =>
    match s.has_ended with
    | some sc => decide (sc.value ≤ c)
    | none =>
      match fuel with
      | 0 => false
      | f + 1 =>
        if side then
          match stratPlay st with
          | some (mv, bs) =>
            (s.open_tiles).contains mv && chkLE c f bs false (s.do_move ⟨mv, s.current_piece_turn⟩)
          | none => false
        else
          (s.open_tiles).all fun j =>
            match findStrat st j with
            | some t => chkLE c f t true (s.do_move ⟨j, s.current_piece_turn⟩)
            | none => false

/-- Strategy tree certifying that X holds the game value of the empty board
at or above 0 (a committed X reply for every O continuation). -/
def geTree : Strat :=
  (.splay 0 (.sbr 1 (.splay 3 (.sbr 2 (.splay 6 .snil) (.sbr 4 (.splay 6 .snil) (.sbr 5 (.splay 6 .snil) (.sbr 6 (.splay 4 (.sbr 2 (.splay 5 .snil) (.sbr 5 (.splay 8 .snil) (.sbr 7 (.splay 5 .snil) (.sbr 8 (.splay 5 .snil) .snil))))) (.sbr 7 (.splay 6 .snil) (.sbr 8 (.splay 6 .snil) .snil))))))) (.sbr 2 (.splay 3 (.sbr 1 (.splay 6 .snil) (.sbr 4 (.splay 6 .snil) (.sbr 5 (.splay 6 .snil) (.sbr 6 (.splay 4 (.sbr 1 (.splay 5 .snil) (.sbr 5 (.splay 8 .snil) (.sbr 7 (.splay 5 .snil) (.sbr 8 (.splay 5 .snil) .snil))))) (.sbr 7 (.splay 6 .snil) (.sbr 8 (.splay 6 .snil) .snil))))))) (.sbr 3 (.splay 1 (.sbr 2 (.splay 4 (.sbr 5 (.splay 7 .snil) (.sbr 6 (.splay 7 .snil) (.sbr 7 (.splay 8 .snil) (.sbr 8 (.splay 7 .snil) .snil))))) (.sbr 4 (.splay 2 .snil) (.sbr 5 (.splay 2 .snil) (.sbr 6 (.splay 2 .snil) (.sbr 7 (.splay 2 .snil) (.sbr 8 (.splay 2 .snil) .snil))))))) (.sbr 4 (.splay 1 (.sbr 2 (.splay 6 (.sbr 3 (.splay 5 (.sbr 7 (.splay 8 .snil) (.sbr 8 (.splay 7 .snil) .snil))) (.sbr 5 (.splay 3 .snil) (.sbr 7 (.splay 3 .snil) (.sbr 8 (.splay 3 .snil) .snil))))) (.sbr 3 (.splay 2 .snil) (.sbr 5 (.splay 2 .snil) (.sbr 6 (.splay 2 .snil) (.sbr 7 (.splay 2 .snil) (.sbr 8 (.splay 2 .snil) .snil))))))) (.sbr 5 (.splay 2 (.sbr 1 (.splay 4 (.sbr 3 (.splay 6 .snil) (.sbr 6 (.splay 8 .snil) (.sbr 7 (.splay 6 .snil) (.sbr 8 (.splay 6 .snil) .snil))))) (.sbr 3 (.splay 1 .snil) (.sbr 4 (.splay 1 .snil) (.sbr 6 (.splay 1 .snil) (.sbr 7 (.splay 1 .snil) (.sbr 8 (.splay 1 .snil) .snil))))))) (.sbr 6 (.splay 1 (.sbr 2 (.splay 4 (.sbr 3 (.splay 7 .snil) (.sbr 5 (.splay 7 .snil) (.sbr 7 (.splay 8 .snil) (.sbr 8 (.splay 7 .snil) .snil))))) (.sbr 3 (.splay 2 .snil) (.sbr 4 (.splay 2 .snil) (.sbr 5 (.splay 2 .snil) (.sbr 7 (.splay 2 .snil) (.sbr 8 (.splay 2 .snil) .snil))))))) (.sbr 7 (.splay 2 (.sbr 1 (.splay 4 (.sbr 3 (.splay 6 .snil) (.sbr 5 (.splay 6 .snil) (.sbr 6 (.splay 8 .snil) (.sbr 8 (.splay 6 .snil) .snil))))) (.sbr 3 (.splay 1 .snil) (.sbr 4 (.splay 1 .snil) (.sbr 5 (.splay 1 .snil) (.sbr 6 (.splay 1 .snil) (.sbr 8 (.splay 1 .snil) .snil))))))) (.sbr 8 (.splay 2 (.sbr 1 (.splay 6 (.sbr 3 (.splay 4 .snil) (.sbr 4 (.splay 3 .snil) (.sbr 5 (.splay 3 .snil) (.sbr 7 (.splay 3 .snil) .snil))))) (.sbr 3 (.splay 1 .snil) (.sbr 4 (.splay 1 .snil) (.sbr 5 (.splay 1 .snil) (.sbr 6 (.splay 1 .snil) (.sbr 7 (.splay 1 .snil) .snil))))))) .snil)))))))))

/-- Strategy tree certifying that O holds the game value of the empty board
at or below 0.  The root is an X-to-move position, so the tree starts with
the branch chain over the first X move. -/
def leTree : Strat :=
  (.sbr 0 (.splay 4 (.sbr 1 (.splay 2 (.sbr 3 (.splay 6 .snil) (.sbr 5 (.splay 6 .snil) (.sbr 6 (.splay 3 (.sbr 5 (.splay 7 (.sbr 8 .snil .snil)) (.sbr 7 (.splay 5 .snil) (.sbr 8 (.splay 5 .snil) .snil)))) (.sbr 7 (.splay 6 .snil) (.sbr 8 (.splay 6 .snil) .snil)))))) (.sbr 2 (.splay 1 (.sbr 3 (.splay 7 .snil) (.sbr 5 (.splay 7 .snil) (.sbr 6 (.splay 7 .snil) (.sbr 7 (.splay 3 (.sbr 5 (.splay 8 (.sbr 6 .snil .snil)) (.sbr 6 (.splay 5 .snil) (.sbr 8 (.splay 5 .snil) .snil)))) (.sbr 8 (.splay 7 .snil) .snil)))))) (.sbr 3 (.splay 6 (.sbr 1 (.splay 2 .snil) (.sbr 2 (.splay 1 (.sbr 5 (.splay 7 .snil) (.sbr 7 (.splay 5 (.sbr 8 .snil .snil)) (.sbr 8 (.splay 7 .snil) .snil)))) (.sbr 5 (.splay 2 .snil) (.sbr 7 (.splay 2 .snil) (.sbr 8 (.splay 2 .snil) .snil)))))) (.sbr 5 (.splay 1 (.sbr 2 (.splay 7 .snil) (.sbr 3 (.splay 7 .snil) (.sbr 6 (.splay 7 .snil) (.sbr 7 (.splay 6 (.sbr 2 (.splay 8 (.sbr 3 .snil .snil)) (.sbr 3 (.splay 2 .snil) (.sbr 8 (.splay 2 .snil) .snil)))) (.sbr 8 (.splay 7 .snil) .snil)))))) (.sbr 6 (.splay 3 (.sbr 1 (.splay 5 .snil) (.sbr 2 (.splay 5 .snil) (.sbr 5 (.splay 1 (.sbr 2 (.splay 7 .snil) (.sbr 7 (.splay 8 (.sbr 2 .snil .snil)) (.sbr 8 (.splay 7 .snil) .snil)))) (.sbr 7 (.splay 5 .snil) (.sbr 8 (.splay 5 .snil) .snil)))))) (.sbr 7 (.splay 3 (.sbr 1 (.splay 5 .snil) (.sbr 2 (.splay 5 .snil) (.sbr 5 (.splay 2 (.sbr 1 (.splay 6 .snil) (.sbr 6 (.splay 8 (.sbr 1 .snil .snil)) (.sbr 8 (.splay 6 .snil) .snil)))) (.sbr 6 (.splay 5 .snil) (.sbr 8 (.splay 5 .snil) .snil)))))) (.sbr 8 (.splay 1 (.sbr 2 (.splay 7 .snil) (.sbr 3 (.splay 7 .snil) (.sbr 5 (.splay 7 .snil) (.sbr 6 (.splay 7 .snil) (.sbr 7 (.splay 6 (.sbr 2 (.splay 5 (.sbr 3 .snil .snil)) (.sbr 3 (.splay 2 .snil) (.sbr 5 (.splay 2 .snil) .snil)))) .snil)))))) .snil)))))))) (.sbr 1 (.splay 4 (.sbr 0 (.splay 2 (.sbr 3 (.splay 6 .snil) (.sbr 5 (.splay 6 .snil) (.sbr 6 (.splay 3 (.sbr 5 (.splay 7 (.sbr 8 .snil .snil)) (.sbr 7 (.splay 5 .snil) (.sbr 8 (.splay 5 .snil) .snil)))) (.sbr 7 (.splay 6 .snil) (.sbr 8 (.splay 6 .snil) .snil)))))) (.sbr 2 (.splay 0 (.sbr 3 (.splay 8 .snil) (.sbr 5 (.splay 8 .snil) (.sbr 6 (.splay 8 .snil) (.sbr 7 (.splay 8 .snil) (.sbr 8 (.splay 5 (.sbr 3 (.splay 6 (.sbr 7 .snil .snil)) (.sbr 6 (.splay 3 .snil) (.sbr 7 (.splay 3 .snil) .snil)))) .snil)))))) (.sbr 3 (.splay 0 (.sbr 2 (.splay 8 .snil) (.sbr 5 (.splay 8 .snil) (.sbr 6 (.splay 8 .snil) (.sbr 7 (.splay 8 .snil) (.sbr 8 (.splay 2 (.sbr 5 (.splay 6 .snil) (.sbr 6 (.splay 7 (.sbr 5 .snil .snil)) (.sbr 7 (.splay 6 .snil) .snil)))) .snil)))))) (.sbr 5 (.splay 0 (.sbr 2 (.splay 8 .snil) (.sbr 3 (.splay 8 .snil) (.sbr 6 (.splay 8 .snil) (.sbr 7 (.splay 8 .snil) (.sbr 8 (.splay 2 (.sbr 3 (.splay 6 .snil) (.sbr 6 (.splay 7 (.sbr 3 .snil .snil)) (.sbr 7 (.splay 6 .snil) .snil)))) .snil)))))) (.sbr 6 (.splay 3 (.sbr 0 (.splay 5 .snil) (.sbr 2 (.splay 5 .snil) (.sbr 5 (.splay 8 (.sbr 0 (.splay 2 (.sbr 7 .snil .snil)) (.sbr 2 (.splay 0 .snil) (.sbr 7 (.splay 0 .snil) .snil)))) (.sbr 7 (.splay 5 .snil) (.sbr 8 (.splay 5 .snil) .snil)))))) (.sbr 7 (.splay 0 (.sbr 2 (.splay 8 .snil) (.sbr 3 (.splay 8 .snil) (.sbr 5 (.splay 8 .snil) (.sbr 6 (.splay 8 .snil) (.sbr 8 (.splay 6 (.sbr 2 (.splay 3 .snil) (.sbr 3 (.splay 2 .snil) (.sbr 5 (.splay 2 .snil) .snil)))) .snil)))))) (.sbr 8 (.splay 3 (.sbr 0 (.splay 5 .snil) (.sbr 2 (.splay 5 .snil) (.sbr 5 (.splay 2 (.sbr 0 (.splay 6 .snil) (.sbr 6 (.splay 7 (.sbr 0 .snil .snil)) (.sbr 7 (.splay 6 .snil) .snil)))) (.sbr 6 (.splay 5 .snil) (.sbr 7 (.splay 5 .snil) .snil)))))) .snil)))))))) (.sbr 2 (.splay 4 (.sbr 0 (.splay 1 (.sbr 3 (.splay 7 .snil) (.sbr 5 (.splay 7 .snil) (.sbr 6 (.splay 7 .snil) (.sbr 7 (.splay 3 (.sbr 5 (.splay 8 (.sbr 6 .snil .snil)) (.sbr 6 (.splay 5 .snil) (.sbr 8 (.splay 5 .snil) .snil)))) (.sbr 8 (.splay 7 .snil) .snil)))))) (.sbr 1 (.splay 0 (.sbr 3 (.splay 8 .snil) (.sbr 5 (.splay 8 .snil) (.sbr 6 (.splay 8 .snil) (.sbr 7 (.splay 8 .snil) (.sbr 8 (.splay 5 (.sbr 3 (.splay 6 (.sbr 7 .snil .snil)) (.sbr 6 (.splay 3 .snil) (.sbr 7 (.splay 3 .snil) .snil)))) .snil)))))) (.sbr 3 (.splay 1 (.sbr 0 (.splay 7 .snil) (.sbr 5 (.splay 7 .snil) (.sbr 6 (.splay 7 .snil) (.sbr 7 (.splay 8 (.sbr 0 (.splay 6 (.sbr 5 .snil .snil)) (.sbr 5 (.splay 0 .snil) (.sbr 6 (.splay 0 .snil) .snil)))) (.sbr 8 (.splay 7 .snil) .snil)))))) (.sbr 5 (.splay 8 (.sbr 0 (.splay 1 (.sbr 3 (.splay 7 .snil) (.sbr 6 (.splay 7 .snil) (.sbr 7 (.splay 3 (.sbr 6 .snil .snil)) .snil)))) (.sbr 1 (.splay 0 .snil) (.sbr 3 (.splay 0 .snil) (.sbr 6 (.splay 0 .snil) (.sbr 7 (.splay 0 .snil) .snil)))))) (.sbr 6 (.splay 1 (.sbr 0 (.splay 7 .snil) (.sbr 3 (.splay 7 .snil) (.sbr 5 (.splay 7 .snil) (.sbr 7 (.splay 8 (.sbr 0 (.splay 3 (.sbr 5 .snil .snil)) (.sbr 3 (.splay 0 .snil) (.sbr 5 (.splay 0 .snil) .snil)))) (.sbr 8 (.splay 7 .snil) .snil)))))) (.sbr 7 (.splay 3 (.sbr 0 (.splay 5 .snil) (.sbr 1 (.splay 5 .snil) (.sbr 5 (.splay 8 (.sbr 0 (.splay 1 (.sbr 6 .snil .snil)) (.sbr 1 (.splay 0 .snil) (.sbr 6 (.splay 0 .snil) .snil)))) (.sbr 6 (.splay 5 .snil) (.sbr 8 (.splay 5 .snil) .snil)))))) (.sbr 8 (.splay 5 (.sbr 0 (.splay 3 .snil) (.sbr 1 (.splay 3 .snil) (.sbr 3 (.splay 1 (.sbr 0 (.splay 7 .snil) (.sbr 6 (.splay 7 .snil) (.sbr 7 (.splay 6 (.sbr 0 .snil .snil)) .snil)))) (.sbr 6 (.splay 3 .snil) (.sbr 7 (.splay 3 .snil) .snil)))))) .snil)))))))) (.sbr 3 (.splay 4 (.sbr 0 (.splay 6 (.sbr 1 (.splay 2 .snil) (.sbr 2 (.splay 1 (.sbr 5 (.splay 7 .snil) (.sbr 7 (.splay 5 (.sbr 8 .snil .snil)) (.sbr 8 (.splay 7 .snil) .snil)))) (.sbr 5 (.splay 2 .snil) (.sbr 7 (.splay 2 .snil) (.sbr 8 (.splay 2 .snil) .snil)))))) (.sbr 1 (.splay 0 (.sbr 2 (.splay 8 .snil) (.sbr 5 (.splay 8 .snil) (.sbr 6 (.splay 8 .snil) (.sbr 7 (.splay 8 .snil) (.sbr 8 (.splay 2 (.sbr 5 (.splay 6 .snil) (.sbr 6 (.splay 7 (.sbr 5 .snil .snil)) (.sbr 7 (.splay 6 .snil) .snil)))) .snil)))))) (.sbr 2 (.splay 1 (.sbr 0 (.splay 7 .snil) (.sbr 5 (.splay 7 .snil) (.sbr 6 (.splay 7 .snil) (.sbr 7 (.splay 8 (.sbr 0 (.splay 6 (.sbr 5 .snil .snil)) (.sbr 5 (.splay 0 .snil) (.sbr 6 (.splay 0 .snil) .snil)))) (.sbr 8 (.splay 7 .snil) .snil)))))) (.sbr 5 (.splay 0 (.sbr 1 (.splay 8 .snil) (.sbr 2 (.splay 8 .snil) (.sbr 6 (.splay 8 .snil) (.sbr 7 (.splay 8 .snil) (.sbr 8 (.splay 2 (.sbr 1 (.splay 6 .snil) (.sbr 6 (.splay 1 .snil) (.sbr 7 (.splay 1 .snil) .snil)))) .snil)))))) (.sbr 6 (.splay 0 (.sbr 1 (.splay 8 .snil) (.sbr 2 (.splay 8 .snil) (.sbr 5 (.splay 8 .snil) (.sbr 7 (.splay 8 .snil) (.sbr 8 (.splay 7 (.sbr 1 (.splay 2 (.sbr 5 .snil .snil)) (.sbr 2 (.splay 1 .snil) (.sbr 5 (.splay 1 .snil) .snil)))) .snil)))))) (.sbr 7 (.splay 0 (.sbr 1 (.splay 8 .snil) (.sbr 2 (.splay 8 .snil) (.sbr 5 (.splay 8 .snil) (.sbr 6 (.splay 8 .snil) (.sbr 8 (.splay 6 (.sbr 1 (.splay 2 .snil) (.sbr 2 (.splay 5 (.sbr 1 .snil .snil)) (.sbr 5 (.splay 2 .snil) .snil)))) .snil)))))) (.sbr 8 (.splay 1 (.sbr 0 (.splay 7 .snil) (.sbr 2 (.splay 7 .snil) (.sbr 5 (.splay 7 .snil) (.sbr 6 (.splay 7 .snil) (.sbr 7 (.splay 6 (.sbr 0 (.splay 2 .snil) (.sbr 2 (.splay 5 (.sbr 0 .snil .snil)) (.sbr 5 (.splay 2 .snil) .snil)))) .snil)))))) .snil)))))))) (.sbr 4 (.splay 0 (.sbr 1 (.splay 7 (.sbr 2 (.splay 6 (.sbr 3 (.splay 8 .snil) (.sbr 5 (.splay 3 .snil) (.sbr 8 (.splay 3 .snil) .snil)))) (.sbr 3 (.splay 5 (.sbr 2 (.splay 6 (.sbr 8 .snil .snil)) (.sbr 6 (.splay 2 (.sbr 8 .snil .snil)) (.sbr 8 (.splay 2 (.sbr 6 .snil .snil)) .snil)))) (.sbr 5 (.splay 3 (.sbr 2 (.splay 6 .snil) (.sbr 6 (.splay 2 (.sbr 8 .snil .snil)) (.sbr 8 (.splay 6 .snil) .snil)))) (.sbr 6 (.splay 2 (.sbr 3 (.splay 5 (.sbr 8 .snil .snil)) (.sbr 5 (.splay 3 (.sbr 8 .snil .snil)) (.sbr 8 (.splay 3 (.sbr 5 .snil .snil)) .snil)))) (.sbr 8 (.splay 3 (.sbr 2 (.splay 6 .snil) (.sbr 5 (.splay 6 .snil) (.sbr 6 (.splay 2 (.sbr 5 .snil .snil)) .snil)))) .snil)))))) (.sbr 2 (.splay 6 (.sbr 1 (.splay 3 .snil) (.sbr 3 (.splay 5 (.sbr 1 (.splay 7 (.sbr 8 .snil .snil)) (.sbr 7 (.splay 1 (.sbr 8 .snil .snil)) (.sbr 8 (.splay 1 (.sbr 7 .snil .snil)) .snil)))) (.sbr 5 (.splay 3 .snil) (.sbr 7 (.splay 3 .snil) (.sbr 8 (.splay 3 .snil) .snil)))))) (.sbr 3 (.splay 5 (.sbr 1 (.splay 7 (.sbr 2 (.splay 6 (.sbr 8 .snil .snil)) (.sbr 6 (.splay 2 (.sbr 8 .snil .snil)) (.sbr 8 (.splay 2 (.sbr 6 .snil .snil)) .snil)))) (.sbr 2 (.splay 6 (.sbr 1 (.splay 7 (.sbr 8 .snil .snil)) (.sbr 7 (.splay 1 (.sbr 8 .snil .snil)) (.sbr 8 (.splay 1 (.sbr 7 .snil .snil)) .snil)))) (.sbr 6 (.splay 2 (.sbr 1 (.splay 8 .snil) (.sbr 7 (.splay 1 .snil) (.sbr 8 (.splay 1 .snil) .snil)))) (.sbr 7 (.splay 1 (.sbr 2 (.splay 6 (.sbr 8 .snil .snil)) (.sbr 6 (.splay 2 .snil) (.sbr 8 (.splay 2 .snil) .snil)))) (.sbr 8 (.splay 1 (.sbr 2 (.splay 6 (.sbr 7 .snil .snil)) (.sbr 6 (.splay 2 .snil) (.sbr 7 (.splay 2 .snil) .snil)))) .snil)))))) (.sbr 5 (.splay 3 (.sbr 1 (.splay 6 .snil) (.sbr 2 (.splay 6 .snil) (.sbr 6 (.splay 2 (.sbr 1 (.splay 7 (.sbr 8 .snil .snil)) (.sbr 7 (.splay 1 .snil) (.sbr 8 (.splay 1 .snil) .snil)))) (.sbr 7 (.splay 6 .snil) (.sbr 8 (.splay 6 .snil) .snil)))))) (.sbr 6 (.splay 2 (.sbr 1 (.splay 7 (.sbr 3 (.splay 5 (.sbr 8 .snil .snil)) (.sbr 5 (.splay 3 (.sbr 8 .snil .snil)) (.sbr 8 (.splay 3 (.sbr 5 .snil .snil)) .snil)))) (.sbr 3 (.splay 1 .snil) (.sbr 5 (.splay 1 .snil) (.sbr 7 (.splay 1 .snil) (.sbr 8 (.splay 1 .snil) .snil)))))) (.sbr 7 (.splay 1 (.sbr 2 (.splay 6 (.sbr 3 (.splay 5 (.sbr 8 .snil .snil)) (.sbr 5 (.splay 3 .snil) (.sbr 8 (.splay 3 .snil) .snil)))) (.sbr 3 (.splay 2 .snil) (.sbr 5 (.splay 2 .snil) (.sbr 6 (.splay 2 .snil) (.sbr 8 (.splay 2 .snil) .snil)))))) (.sbr 8 (.splay 2 (.sbr 1 (.splay 7 (.sbr 3 (.splay 5 (.sbr 6 .snil .snil)) (.sbr 5 (.splay 3 (.sbr 6 .snil .snil)) (.sbr 6 (.splay 3 (.sbr 5 .snil .snil)) .snil)))) (.sbr 3 (.splay 1 .snil) (.sbr 5 (.splay 1 .snil) (.sbr 6 (.splay 1 .snil) (.sbr 7 (.splay 1 .snil) .snil)))))) .snil)))))))) (.sbr 5 (.splay 4 (.sbr 0 (.splay 1 (.sbr 2 (.splay 7 .snil) (.sbr 3 (.splay 7 .snil) (.sbr 6 (.splay 7 .snil) (.sbr 7 (.splay 6 (.sbr 2 (.splay 8 (.sbr 3 .snil .snil)) (.sbr 3 (.splay 2 .snil) (.sbr 8 (.splay 2 .snil) .snil)))) (.sbr 8 (.splay 7 .snil) .snil)))))) (.sbr 1 (.splay 0 (.sbr 2 (.splay 8 .snil) (.sbr 3 (.splay 8 .snil) (.sbr 6 (.splay 8 .snil) (.sbr 7 (.splay 8 .snil) (.sbr 8 (.splay 2 (.sbr 3 (.splay 6 .snil) (.sbr 6 (.splay 7 (.sbr 3 .snil .snil)) (.sbr 7 (.splay 6 .snil) .snil)))) .snil)))))) (.sbr 2 (.splay 8 (.sbr 0 (.splay 1 (.sbr 3 (.splay 7 .snil) (.sbr 6 (.splay 7 .snil) (.sbr 7 (.splay 3 (.sbr 6 .snil .snil)) .snil)))) (.sbr 1 (.splay 0 .snil) (.sbr 3 (.splay 0 .snil) (.sbr 6 (.splay 0 .snil) (.sbr 7 (.splay 0 .snil) .snil)))))) (.sbr 3 (.splay 0 (.sbr 1 (.splay 8 .snil) (.sbr 2 (.splay 8 .snil) (.sbr 6 (.splay 8 .snil) (.sbr 7 (.splay 8 .snil) (.sbr 8 (.splay 2 (.sbr 1 (.splay 6 .snil) (.sbr 6 (.splay 1 .snil) (.sbr 7 (.splay 1 .snil) .snil)))) .snil)))))) (.sbr 6 (.splay 1 (.sbr 0 (.splay 7 .snil) (.sbr 2 (.splay 7 .snil) (.sbr 3 (.splay 7 .snil) (.sbr 7 (.splay 8 (.sbr 0 (.splay 3 (.sbr 2 .snil .snil)) (.sbr 2 (.splay 0 .snil) (.sbr 3 (.splay 0 .snil) .snil)))) (.sbr 8 (.splay 7 .snil) .snil)))))) (.sbr 7 (.splay 2 (.sbr 0 (.splay 6 .snil) (.sbr 1 (.splay 6 .snil) (.sbr 3 (.splay 6 .snil) (.sbr 6 (.splay 8 (.sbr 0 (.splay 3 (.sbr 1 .snil .snil)) (.sbr 1 (.splay 0 .snil) (.sbr 3 (.splay 0 .snil) .snil)))) (.sbr 8 (.splay 6 .snil) .snil)))))) (.sbr 8 (.splay 2 (.sbr 0 (.splay 6 .snil) (.sbr 1 (.splay 6 .snil) (.sbr 3 (.splay 6 .snil) (.sbr 6 (.splay 7 (.sbr 0 (.splay 1 .snil) (.sbr 1 (.splay 0 (.sbr 3 .snil .snil)) (.sbr 3 (.splay 1 .snil) .snil)))) (.sbr 7 (.splay 6 .snil) .snil)))))) .snil)))))))) (.sbr 6 (.splay 4 (.sbr 0 (.splay 3 (.sbr 1 (.splay 5 .snil) (.sbr 2 (.splay 5 .snil) (.sbr 5 (.splay 1 (.sbr 2 (.splay 7 .snil) (.sbr 7 (.splay 8 (.sbr 2 .snil .snil)) (.sbr 8 (.splay 7 .snil) .snil)))) (.sbr 7 (.splay 5 .snil) (.sbr 8 (.splay 5 .snil) .snil)))))) (.sbr 1 (.splay 3 (.sbr 0 (.splay 5 .snil) (.sbr 2 (.splay 5 .snil) (.sbr 5 (.splay 8 (.sbr 0 (.splay 2 (.sbr 7 .snil .snil)) (.sbr 2 (.splay 0 .snil) (.sbr 7 (.splay 0 .snil) .snil)))) (.sbr 7 (.splay 5 .snil) (.sbr 8 (.splay 5 .snil) .snil)))))) (.sbr 2 (.splay 1 (.sbr 0 (.splay 7 .snil) (.sbr 3 (.splay 7 .snil) (.sbr 5 (.splay 7 .snil) (.sbr 7 (.splay 8 (.sbr 0 (.splay 3 (.sbr 5 .snil .snil)) (.sbr 3 (.splay 0 .snil) (.sbr 5 (.splay 0 .snil) .snil)))) (.sbr 8 (.splay 7 .snil) .snil)))))) (.sbr 3 (.splay 0 (.sbr 1 (.splay 8 .snil) (.sbr 2 (.splay 8 .snil) (.sbr 5 (.splay 8 .snil) (.sbr 7 (.splay 8 .snil) (.sbr 8 (.splay 7 (.sbr 1 (.splay 2 (.sbr 5 .snil .snil)) (.sbr 2 (.splay 1 .snil) (.sbr 5 (.splay 1 .snil) .snil)))) .snil)))))) (.sbr 5 (.splay 1 (.sbr 0 (.splay 7 .snil) (.sbr 2 (.splay 7 .snil) (.sbr 3 (.splay 7 .snil) (.sbr 7 (.splay 8 (.sbr 0 (.splay 3 (.sbr 2 .snil .snil)) (.sbr 2 (.splay 0 .snil) (.sbr 3 (.splay 0 .snil) .snil)))) (.sbr 8 (.splay 7 .snil) .snil)))))) (.sbr 7 (.splay 8 (.sbr 0 (.splay 3 (.sbr 1 (.splay 5 .snil) (.sbr 2 (.splay 5 .snil) (.sbr 5 (.splay 1 (.sbr 2 .snil .snil)) .snil)))) (.sbr 1 (.splay 0 .snil) (.sbr 2 (.splay 0 .snil) (.sbr 3 (.splay 0 .snil) (.sbr 5 (.splay 0 .snil) .snil)))))) (.sbr 8 (.splay 7 (.sbr 0 (.splay 1 .snil) (.sbr 1 (.splay 3 (.sbr 0 (.splay 5 .snil) (.sbr 2 (.splay 5 .snil) (.sbr 5 (.splay 2 (.sbr 0 .snil .snil)) .snil)))) (.sbr 2 (.splay 1 .snil) (.sbr 3 (.splay 1 .snil) (.sbr 5 (.splay 1 .snil) .snil)))))) .snil)))))))) (.sbr 7 (.splay 4 (.sbr 0 (.splay 3 (.sbr 1 (.splay 5 .snil) (.sbr 2 (.splay 5 .snil) (.sbr 5 (.splay 2 (.sbr 1 (.splay 6 .snil) (.sbr 6 (.splay 8 (.sbr 1 .snil .snil)) (.sbr 8 (.splay 6 .snil) .snil)))) (.sbr 6 (.splay 5 .snil) (.sbr 8 (.splay 5 .snil) .snil)))))) (.sbr 1 (.splay 0 (.sbr 2 (.splay 8 .snil) (.sbr 3 (.splay 8 .snil) (.sbr 5 (.splay 8 .snil) (.sbr 6 (.splay 8 .snil) (.sbr 8 (.splay 6 (.sbr 2 (.splay 3 .snil) (.sbr 3 (.splay 2 .snil) (.sbr 5 (.splay 2 .snil) .snil)))) .snil)))))) (.sbr 2 (.splay 3 (.sbr 0 (.splay 5 .snil) (.sbr 1 (.splay 5 .snil) (.sbr 5 (.splay 8 (.sbr 0 (.splay 1 (.sbr 6 .snil .snil)) (.sbr 1 (.splay 0 .snil) (.sbr 6 (.splay 0 .snil) .snil)))) (.sbr 6 (.splay 5 .snil) (.sbr 8 (.splay 5 .snil) .snil)))))) (.sbr 3 (.splay 0 (.sbr 1 (.splay 8 .snil) (.sbr 2 (.splay 8 .snil) (.sbr 5 (.splay 8 .snil) (.sbr 6 (.splay 8 .snil) (.sbr 8 (.splay 6 (.sbr 1 (.splay 2 .snil) (.sbr 2 (.splay 5 (.sbr 1 .snil .snil)) (.sbr 5 (.splay 2 .snil) .snil)))) .snil)))))) (.sbr 5 (.splay 2 (.sbr 0 (.splay 6 .snil) (.sbr 1 (.splay 6 .snil) (.sbr 3 (.splay 6 .snil) (.sbr 6 (.splay 8 (.sbr 0 (.splay 3 (.sbr 1 .snil .snil)) (.sbr 1 (.splay 0 .snil) (.sbr 3 (.splay 0 .snil) .snil)))) (.sbr 8 (.splay 6 .snil) .snil)))))) (.sbr 6 (.splay 8 (.sbr 0 (.splay 3 (.sbr 1 (.splay 5 .snil) (.sbr 2 (.splay 5 .snil) (.sbr 5 (.splay 1 (.sbr 2 .snil .snil)) .snil)))) (.sbr 1 (.splay 0 .snil) (.sbr 2 (.splay 0 .snil) (.sbr 3 (.splay 0 .snil) (.sbr 5 (.splay 0 .snil) .snil)))))) (.sbr 8 (.splay 6 (.sbr 0 (.splay 2 .snil) (.sbr 1 (.splay 2 .snil) (.sbr 2 (.splay 5 (.sbr 0 (.splay 3 .snil) (.sbr 1 (.splay 3 .snil) (.sbr 3 (.splay 0 (.sbr 1 .snil .snil)) .snil)))) (.sbr 3 (.splay 2 .snil) (.sbr 5 (.splay 2 .snil) .snil)))))) .snil)))))))) (.sbr 8 (.splay 4 (.sbr 0 (.splay 1 (.sbr 2 (.splay 7 .snil) (.sbr 3 (.splay 7 .snil) (.sbr 5 (.splay 7 .snil) (.sbr 6 (.splay 7 .snil) (.sbr 7 (.splay 6 (.sbr 2 (.splay 5 (.sbr 3 .snil .snil)) (.sbr 3 (.splay 2 .snil) (.sbr 5 (.splay 2 .snil) .snil)))) .snil)))))) (.sbr 1 (.splay 3 (.sbr 0 (.splay 5 .snil) (.sbr 2 (.splay 5 .snil) (.sbr 5 (.splay 2 (.sbr 0 (.splay 6 .snil) (.sbr 6 (.splay 7 (.sbr 0 .snil .snil)) (.sbr 7 (.splay 6 .snil) .snil)))) (.sbr 6 (.splay 5 .snil) (.sbr 7 (.splay 5 .snil) .snil)))))) (.sbr 2 (.splay 5 (.sbr 0 (.splay 3 .snil) (.sbr 1 (.splay 3 .snil) (.sbr 3 (.splay 1 (.sbr 0 (.splay 7 .snil) (.sbr 6 (.splay 7 .snil) (.sbr 7 (.splay 6 (.sbr 0 .snil .snil)) .snil)))) (.sbr 6 (.splay 3 .snil) (.sbr 7 (.splay 3 .snil) .snil)))))) (.sbr 3 (.splay 1 (.sbr 0 (.splay 7 .snil) (.sbr 2 (.splay 7 .snil) (.sbr 5 (.splay 7 .snil) (.sbr 6 (.splay 7 .snil) (.sbr 7 (.splay 6 (.sbr 0 (.splay 2 .snil) (.sbr 2 (.splay 5 (.sbr 0 .snil .snil)) (.sbr 5 (.splay 2 .snil) .snil)))) .snil)))))) (.sbr 5 (.splay 2 (.sbr 0 (.splay 6 .snil) (.sbr 1 (.splay 6 .snil) (.sbr 3 (.splay 6 .snil) (.sbr 6 (.splay 7 (.sbr 0 (.splay 1 .snil) (.sbr 1 (.splay 0 (.sbr 3 .snil .snil)) (.sbr 3 (.splay 1 .snil) .snil)))) (.sbr 7 (.splay 6 .snil) .snil)))))) (.sbr 6 (.splay 7 (.sbr 0 (.splay 1 .snil) (.sbr 1 (.splay 3 (.sbr 0 (.splay 5 .snil) (.sbr 2 (.splay 5 .snil) (.sbr 5 (.splay 2 (.sbr 0 .snil .snil)) .snil)))) (.sbr 2 (.splay 1 .snil) (.sbr 3 (.splay 1 .snil) (.sbr 5 (.splay 1 .snil) .snil)))))) (.sbr 7 (.splay 6 (.sbr 0 (.splay 2 .snil) (.sbr 1 (.splay 2 .snil) (.sbr 2 (.splay 5 (.sbr 0 (.splay 3 .snil) (.sbr 1 (.splay 3 .snil) (.sbr 3 (.splay 0 (.sbr 1 .snil .snil)) .snil)))) (.sbr 3 (.splay 2 .snil) (.sbr 5 (.splay 2 .snil) .snil)))))) .snil)))))))) .snil)))))))))

/-! Order facts about search values. -/

theorem Val.blt_irrefl (a : Val) : a.blt a = false := by
  cases a <;> simp [Val.blt]

theorem Val.blt_asymm {a b : Val} (h : a.blt b = true) : b.blt a = false := by
  cases a <;> cases b <;> simp_all [Val.blt] <;> omega

theorem Val.blt_false_trans {a b c : Val} (h1 : a.blt b = false) (h2 : b.blt c = false) :
    a.blt c = false := by
  cases a <;> cases b <;> cases c <;> simp_all [Val.blt] <;> omega

theorem Val.eq_of_not_blt {a b : Val} (h1 : a.blt b = false) (h2 : b.blt a = false) : a = b := by
  cases a <;> cases b <;> simp_all [Val.blt] <;> omega

/-! Values computed by the two selection loops. -/

/-- Running maximum computed by the maximizing loop. -/
def supV (f : Move → Val) (l : List Move) (v0 : Val) : Val :=
  l.foldl (fun v m => if v.blt (f m) then f m else v) v0

/-- Running minimum computed by the minimizing loop. -/
def infV (f : Move → Val) (l : List Move) (v0 : Val) : Val :=
  l.foldl (fun v m => if (f m).blt v then f m else v) v0

theorem maxLoop_snd (f : Move → Val) :
    ∀ (l : List Move) (bm : Option Move) (v : Val), (maxLoop f l bm v).2 = supV f l v := by
  intro l
  induction l with
  | nil => intro bm v; rfl
  | cons m ms ih =>
    intro bm v
    simp only [maxLoop, supV, List.foldl_cons]
    by_cases h : v.blt (f m) = true
    · simp only [h, if_true]; exact ih _ _
    · simp only [Bool.not_eq_true] at h; simp only [h, if_false]; exact ih _ _

theorem minLoop_snd (f : Move → Val) :
    ∀ (l : List Move) (bm : Option Move) (v : Val), (minLoop f l bm v).2 = infV f l v := by
  intro l
  induction l with
  | nil => intro bm v; rfl
  | cons m ms ih =>
    intro bm v
    simp only [minLoop, infV, List.foldl_cons]
    by_cases h : (f m).blt v = true
    · simp only [h, if_true]; exact ih _ _
    · simp only [Bool.not_eq_true] at h; simp only [h, if_false]; exact ih _ _

theorem supV_not_blt_init (f : Move → Val) :
    ∀ (l : List Move) (v : Val), (supV f l v).blt v = false := by
  intro l
  induction l with
  | nil => intro v; exact Val.blt_irrefl v
  | cons m ms ih =>
    intro v
    simp only [supV, List.foldl_cons]
    by_cases h : v.blt (f m) = true
    · simp only [h, if_true]
      exact Val.blt_false_trans (ih (f m)) (Val.blt_asymm h)
    · simp only [Bool.not_eq_true] at h; simp only [h, if_false]; exact ih v

theorem infV_not_blt_init (f : Move → Val) :
    ∀ (l : List Move) (v : Val), v.blt (infV f l v) = false := by
  intro l
  induction l with
  | nil => intro v; exact Val.blt_irrefl v
  | cons m ms ih =>
    intro v
    simp only [infV, List.foldl_cons]
    by_cases h : (f m).blt v = true
    · simp only [h, if_true]
      exact Val.blt_false_trans (Val.blt_asymm h) (ih (f m))
    · simp only [Bool.not_eq_true] at h; simp only [h, if_false]; exact ih v

theorem supV_not_blt_elem (f : Move → Val) :
    ∀ (l : List Move) (v : Val) (m : Move), m ∈ l → (supV f l v).blt (f m) = false := by
  intro l
  induction l with
  | nil => intro v m hm; cases hm
  | cons a ms ih =>
    intro v m hm
    simp only [supV, List.foldl_cons]
    rcases List.mem_cons.mp hm with rfl | hm
    · by_cases h : v.blt (f m) = true
      · simp only [h, if_true]
        exact supV_not_blt_init f ms (f m)
      · simp only [Bool.not_eq_true] at h; simp only [h, if_false]
        exact Val.blt_false_trans (supV_not_blt_init f ms v) h
    · by_cases h : v.blt (f a) = true
      · simp only [h, if_true]; exact ih _ _ hm
      · simp only [Bool.not_eq_true] at h; simp only [h, if_false]; exact ih _ _ hm

theorem infV_not_blt_elem (f : Move → Val) :
    ∀ (l : List Move) (v : Val) (m : Move), m ∈ l → (f m).blt (infV f l v) = false := by
  intro l
  induction l with
  | nil => intro v m hm; cases hm
  | cons a ms ih =>
    intro v m hm
    simp only [infV, List.foldl_cons]
    rcases List.mem_cons.mp hm with rfl | hm
    · by_cases h : (f m).blt v = true
      · simp only [h, if_true]
        exact infV_not_blt_init f ms (f m)
      · simp only [Bool.not_eq_true] at h; simp only [h, if_false]
        exact Val.blt_false_trans h (infV_not_blt_init f ms v)
    · by_cases h : (f a).blt v = true
      · simp only [h, if_true]; exact ih _ _ hm
      · simp only [Bool.not_eq_true] at h; simp only [h, if_false]; exact ih _ _ hm

theorem supV_not_blt_of_all (f : Move → Val) {w : Val} :
    ∀ (l : List Move) (v : Val), w.blt v = false → (∀ m ∈ l, w.blt (f m) = false) →
      w.blt (supV f l v) = false := by
  intro l
  induction l with
  | nil => intro v hv _; exact hv
  | cons a ms ih =>
    intro v hv hall
    simp only [supV, List.foldl_cons]
    by_cases h : v.blt (f a) = true
    · simp only [h, if_true]
      exact ih _ (hall a (List.mem_cons_self a ms)) (fun m hm => hall m (List.mem_cons_of_mem a hm))
    · simp only [Bool.not_eq_true] at h; simp only [h, if_false]
      exact ih _ hv (fun m hm => hall m (List.mem_cons_of_mem a hm))

theorem infV_not_blt_of_all (f : Move → Val) {w : Val} :
    ∀ (l : List Move) (v : Val), v.blt w = false → (∀ m ∈ l, (f m).blt w = false) →
      (infV f l v).blt w = false := by
  intro l
  induction l with
  | nil => intro v hv _; exact hv
  | cons a ms ih =>
    intro v hv hall
    simp only [infV, List.foldl_cons]
    by_cases h : (f a).blt v = true
    · simp only [h, if_true]
      exact ih _ (hall a (List.mem_cons_self a ms)) (fun m hm => hall m (List.mem_cons_of_mem a hm))
    · simp only [Bool.not_eq_true] at h; simp only [h, if_false]
      exact ih _ hv (fun m hm => hall m (List.mem_cons_of_mem a hm))

theorem supV_attained (f : Move → Val) :
    ∀ (l : List Move) (v : Val), supV f l v = v ∨ ∃ m ∈ l, f m = supV f l v := by
  intro l
  induction l with
  | nil => intro v; exact Or.inl rfl
  | cons a ms ih =>
    intro v
    simp only [supV, List.foldl_cons]
    by_cases h : v.blt (f a) = true
    · simp only [h, if_true]
      rcases ih (f a) with heq | ⟨m, hm, hfm⟩
      · exact Or.inr ⟨a, List.mem_cons_self a ms, heq.symm⟩
      · exact Or.inr ⟨m, List.mem_cons_of_mem a hm, hfm⟩
    · simp only [Bool.not_eq_true] at h; simp only [h, if_false]
      rcases ih v with heq | ⟨m, hm, hfm⟩
      · exact Or.inl heq
      · exact Or.inr ⟨m, List.mem_cons_of_mem a hm, hfm⟩

theorem infV_attained (f : Move → Val) :
    ∀ (l : List Move) (v : Val), infV f l v = v ∨ ∃ m ∈ l, f m = infV f l v := by
  intro l
  induction l with
  | nil => intro v; exact Or.inl rfl
  | cons a ms ih =>
    intro v
    simp only [infV, List.foldl_cons]
    by_cases h : (f a).blt v = true
    · simp only [h, if_true]
      rcases ih (f a) with heq | ⟨m, hm, hfm⟩
      · exact Or.inr ⟨a, List.mem_cons_self a ms, heq.symm⟩
      · exact Or.inr ⟨m, List.mem_cons_of_mem a hm, hfm⟩
    · simp only [Bool.not_eq_true] at h; simp only [h, if_false]
      rcases ih v with heq | ⟨m, hm, hfm⟩
      · exact Or.inl heq
      · exact Or.inr ⟨m, List.mem_cons_of_mem a hm, hfm⟩

/-! Unfolding equations for the search and the certificate checkers. -/

theorem minimax_terminal (fuel : Nat) (s : State) (b : Bool) (sc : Score)
    (h : s.has_ended = some sc) : minimax fuel s b = (none, .num sc.value) := by
  cases fuel with
  | zero => rw [minimax.eq_1, h]
  | succ f => rw [minimax.eq_2, h]

theorem minimax_zero (s : State) (b : Bool) (h : s.has_ended = none) :
    minimax 0 s b = (none, .num 0) := by
  rw [minimax.eq_1, h]

theorem minimax_succ_true (f : Nat) (s : State) (h : s.has_ended = none) :
    minimax (f + 1) s true =
      maxLoop (fun m => (minimax f (s.do_move m) false).2) (moves_list s) none .ninf := by
  rw [minimax.eq_2, h]
  rfl

theorem minimax_succ_false (f : Nat) (s : State) (h : s.has_ended = none) :
    minimax (f + 1) s false =
      minLoop (fun m => (minimax f (s.do_move m) true).2) (moves_list s) none .pinf := by
  rw [minimax.eq_2, h]
  rfl

theorem chkGE_terminal (c : Int) (fuel : Nat) (st : Strat) (side : Bool) (s : State) (sc : Score)
    (h : s.has_ended = some sc) : chkGE c fuel st side s = decide (c ≤ sc.value) := by
  cases fuel with
  | zero => rw [chkGE.eq_1, h]
  | succ f => rw [chkGE.eq_2, h]

theorem chkGE_zero (c : Int) (st : Strat) (side : Bool) (s : State) (h : s.has_ended = none) :
    chkGE c 0 st side s = false := by
  rw [chkGE.eq_1, h]

theorem chkGE_succ_true (c : Int) (f : Nat) (st : Strat) (s : State) (h : s.has_ended = none) :
    chkGE c (f + 1) st true s =
      (match stratPlay st with
       | some (mv, bs) =>
         (s.open_tiles).contains mv && chkGE c f bs false (s.do_move ⟨mv, s.current_piece_turn⟩)
       | none => false) := by
  rw [chkGE.eq_2, h]
  rfl

theorem chkGE_succ_false (c : Int) (f : Nat) (st : Strat) (s : State) (h : s.has_ended = none) :
    chkGE c (f + 1) st false s =
      ((s.open_tiles).all fun j =>
        match findStrat st j with
        | some t => chkGE c f t true (s.do_move ⟨j, s.current_piece_turn⟩)
        | none => false) := by
  rw [chkGE.eq_2, h]
  rfl

theorem chkLE_terminal (c : Int) (fuel : Nat) (st : Strat) (side : Bool) (s : State) (sc : Score)
    (h : s.has_ended = some sc) : chkLE c fuel st side s = decide (sc.value ≤ c) := by
  cases fuel with
  | zero => rw [chkLE.eq_1, h]
  | succ f => rw [chkLE.eq_2, h]

theorem chkLE_zero (c : Int) (st : Strat) (side : Bool) (s : State) (h : s.has_ended = none) :
    chkLE c 0 st side s = false := by
  rw [chkLE.eq_1, h]

theorem chkLE_succ_true (c : Int) (f : Nat) (st : Strat) (s : State) (h : s.has_ended = none) :
    chkLE c (f + 1) st true s =
      (match stratPlay st with
       | some (mv, bs) =>
         (s.open_tiles).contains mv && chkLE c f bs false (s.do_move ⟨mv, s.current_piece_turn⟩)
       | none => false) := by
  rw [chkLE.eq_2, h]
  rfl

theorem chkLE_succ_false (c : Int) (f : Nat) (st : Strat) (s : State) (h : s.has_ended = none) :
    chkLE c (f + 1) st false s =
      ((s.open_tiles).all fun j =>
        match findStrat st j with
        | some t => chkLE c f t true (s.do_move ⟨j, s.current_piece_turn⟩)
        | none => false) := by
  rw [chkLE.eq_2, h]
  rfl

/-! Bit-level description of the free cells. -/

theorem shift_and_one (w n : Nat) : (((w >>> n) &&& 1) != 0) = w.testBit n := by
  unfold Nat.testBit
  rw [Nat.land_comm]

theorem open_bit (v i : Nat) (h9 : i < 9) :
    ((v ^^^ 65535) &&& valid_bitmask).testBit i = !(v.testBit i) := by
  have h511 : valid_bitmask = 2 ^ 9 - 1 := by norm_num [valid_bitmask]
  have h655 : (65535 : Nat) = 2 ^ 16 - 1 := by norm_num
  have h16 : i < 16 := by omega
  rw [Nat.testBit_land, Nat.testBit_xor, h511, h655, Nat.testBit_two_pow_sub_one,
    Nat.testBit_two_pow_sub_one]
  simp [h9, h16]

theorem open_tiles_mem (s : State) (i : Nat) :
    i ∈ s.open_tiles ↔ i < 9 ∧ (s.bitsX ||| s.bitsO).testBit i = false := by
  simp only [State.open_tiles, List.mem_filter, List.mem_range, shift_and_one]
  constructor
  · rintro ⟨h9, hp⟩
    rw [open_bit _ _ h9] at hp
    simp only [Bool.not_eq_true'] at hp
    exact ⟨h9, hp⟩
  · rintro ⟨h9, hp⟩
    refine ⟨h9, ?_⟩
    rw [open_bit _ _ h9, hp]
    rfl

theorem is_draw_iff (s : State) :
    s.is_draw = true ↔ ∀ i, i < 9 → (s.bitsX ||| s.bitsO).testBit i = true := by
  have h511 : (511 : Nat) = 2 ^ 9 - 1 := by norm_num
  unfold State.is_draw
  rw [beq_iff_eq]
  constructor
  · intro h i hi
    have h2 := congrArg (fun t => t.testBit i) h
    simp only [Nat.testBit_land, h511, Nat.testBit_two_pow_sub_one] at h2
    simpa [hi] using h2
  · intro h
    apply Nat.eq_of_testBit_eq
    intro i
    rw [Nat.testBit_land, h511, Nat.testBit_two_pow_sub_one]
    by_cases hi : i < 9
    · simp [hi, h i hi]
    · simp [hi]

theorem has_ended_none_iff (s : State) :
    s.has_ended = none ↔ winScan s.bitsX s.bitsO win_states = none ∧ s.is_draw = false := by
  unfold State.has_ended
  cases h : winScan s.bitsX s.bitsO win_states
  · by_cases hd : s.is_draw <;> simp [hd]
  · simp

theorem moves_list_ne_nil (s : State) (h : s.has_ended = none) : moves_list s ≠ [] := by
  have hparts := (has_ended_none_iff s).mp h
  intro hnil
  unfold moves_list legal_moves at hnil
  rw [List.map_eq_nil_iff] at hnil
  have hall : ∀ i, i < 9 → (s.bitsX ||| s.bitsO).testBit i = true := by
    intro i hi
    by_contra hbit
    have hmem : i ∈ s.open_tiles :=
      (open_tiles_mem s i).mpr ⟨hi, by simpa using hbit⟩
    rw [hnil] at hmem
    cases hmem
  have hdraw := (is_draw_iff s).mpr hall
  rw [hparts.2] at hdraw
  cases hdraw

theorem mem_moves_list (s : State) (i : Nat) (hi : i ∈ s.open_tiles) :
    (⟨i, s.current_piece_turn⟩ : Move) ∈ moves_list s := by
  unfold moves_list legal_moves
  exact List.mem_map_of_mem _ hi

theorem moves_list_shape (s : State) (m : Move) (hm : m ∈ moves_list s) :
    m.ind ∈ s.open_tiles ∧ m.piece = s.current_piece_turn := by
  unfold moves_list legal_moves at hm
  rcases List.mem_map.mp hm with ⟨i, hi, rfl⟩
  exact ⟨hi, rfl⟩

theorem mem_of_contains {l : List Nat} {a : Nat} (h : l.contains a = true) : a ∈ l := by
  simpa using h

/-! Search values are always finite numbers. -/

theorem supV_num (f : Move → Val) :
    ∀ (l : List Move) (v : Val), (∃ n, v = .num n) → (∀ m ∈ l, ∃ n, f m = .num n) →
      ∃ n, supV f l v = .num n := by
  intro l
  induction l with
  | nil => intro v hv _; exact hv
  | cons a ms ih =>
    intro v hv hall
    simp only [supV, List.foldl_cons]
    by_cases h : v.blt (f a) = true
    · simp only [h, if_true]
      exact ih _ (hall a (List.mem_cons_self a ms)) (fun m hm => hall m (List.mem_cons_of_mem a hm))
    · simp only [Bool.not_eq_true] at h
      simp only [h, if_false]
      exact ih _ hv (fun m hm => hall m (List.mem_cons_of_mem a hm))

theorem infV_num (f : Move → Val) :
    ∀ (l : List Move) (v : Val), (∃ n, v = .num n) → (∀ m ∈ l, ∃ n, f m = .num n) →
      ∃ n, infV f l v = .num n := by
  intro l
  induction l with
  | nil => intro v hv _; exact hv
  | cons a ms ih =>
    intro v hv hall
    simp only [infV, List.foldl_cons]
    by_cases h : (f a).blt v = true
    · simp only [h, if_true]
      exact ih _ (hall a (List.mem_cons_self a ms)) (fun m hm => hall m (List.mem_cons_of_mem a hm))
    · simp only [Bool.not_eq_true] at h
      simp only [h, if_false]
      exact ih _ hv (fun m hm => hall m (List.mem_cons_of_mem a hm))

theorem supV_num_of_ne_nil (f : Move → Val) (l : List Move) (hl : l ≠ [])
    (hall : ∀ m ∈ l, ∃ n, f m = .num n) : ∃ n, supV f l .ninf = .num n := by
  cases l with
  | nil => cases hl rfl
  | cons a ms =>
    obtain ⟨n, hn⟩ := hall a (List.mem_cons_self a ms)
    simp only [supV, List.foldl_cons, hn]
    have hblt : Val.blt .ninf (.num n) = true := rfl
    rw [hblt]
    simp only [if_true]
    exact supV_num f ms (.num n) ⟨n, rfl⟩ (fun m hm => hall m (List.mem_cons_of_mem a hm))

theorem infV_num_of_ne_nil (f : Move → Val) (l : List Move) (hl : l ≠ [])
    (hall : ∀ m ∈ l, ∃ n, f m = .num n) : ∃ n, infV f l .pinf = .num n := by
  cases l with
  | nil => cases hl rfl
  | cons a ms =>
    obtain ⟨n, hn⟩ := hall a (List.mem_cons_self a ms)
    simp only [infV, List.foldl_cons, hn]
    have hblt : Val.blt (.num n) .pinf = true := rfl
    rw [hblt]
    simp only [if_true]
    exact infV_num f ms (.num n) ⟨n, rfl⟩ (fun m hm => hall m (List.mem_cons_of_mem a hm))

theorem minimax_num : ∀ (fuel : Nat) (s : State) (b : Bool), ∃ n, (minimax fuel s b).2 = .num n := by
  intro fuel
  induction fuel with
  | zero =>
    intro s b
    cases h : s.has_ended with
    | some sc => rw [minimax_terminal 0 s b sc h]; exact ⟨sc.value, rfl⟩
    | none => rw [minimax_zero s b h]; exact ⟨0, rfl⟩
  | succ f ih =>
    intro s b
    cases h : s.has_ended with
    | some sc => rw [minimax_terminal _ s b sc h]; exact ⟨sc.value, rfl⟩
    | none =>
      cases b
      · rw [minimax_succ_false f s h, minLoop_snd]
        exact infV_num_of_ne_nil _ _ (moves_list_ne_nil s h) (fun m _ => ih (s.do_move m) true)
      · rw [minimax_succ_true f s h, maxLoop_snd]
        exact supV_num_of_ne_nil _ _ (moves_list_ne_nil s h) (fun m _ => ih (s.do_move m) false)

/-! Soundness of the certificate checkers. -/

theorem chkGE_bound (c : Int) :
    ∀ (fuel : Nat) (st : Strat) (side : Bool) (s : State),
      chkGE c fuel st side s = true → ((minimax fuel s side).2).blt (.num c) = false := by
  intro fuel
  induction fuel with
  | zero =>
    intro st side s h
    cases hs : s.has_ended with
    | some sc =>
      rw [minimax_terminal 0 s side sc hs]
      rw [chkGE_terminal c 0 st side s sc hs] at h
      simp only [decide_eq_true_eq] at h
      simp only [Val.blt, decide_eq_false_iff_not]
      omega
    | none =>
      rw [chkGE_zero c st side s hs] at h
      cases h
  | succ f ih =>
    intro st side s h
    cases hs : s.has_ended with
    | some sc =>
      rw [minimax_terminal _ s side sc hs]
      rw [chkGE_terminal c _ st side s sc hs] at h
      simp only [decide_eq_true_eq] at h
      simp only [Val.blt, decide_eq_false_iff_not]
      omega
    | none =>
      cases side
      · rw [chkGE_succ_false c f st s hs] at h
        rw [minimax_succ_false f s hs, minLoop_snd]
        apply infV_not_blt_of_all
        · rfl
        · intro m hm
          obtain ⟨mi, mp⟩ := m
          obtain ⟨hmi, hmp⟩ := moves_list_shape s ⟨mi, mp⟩ hm
          simp only at hmi hmp
          subst hmp
          rw [List.all_eq_true] at h
          have hj := h mi hmi
          cases hfind : findStrat st mi with
          | none => rw [hfind] at hj; cases hj
          | some t =>
            rw [hfind] at hj
            exact ih t true (s.do_move ⟨mi, s.current_piece_turn⟩) hj
      · rw [chkGE_succ_true c f st s hs] at h
        cases hsp : stratPlay st with
        | none => rw [hsp] at h; cases h
        | some p =>
          obtain ⟨mv, bs⟩ := p
          rw [hsp] at h
          simp only [Bool.and_eq_true] at h
          obtain ⟨hmv, hrec⟩ := h
          have hmem : mv ∈ s.open_tiles := mem_of_contains hmv
          have hmv2 : (⟨mv, s.current_piece_turn⟩ : Move) ∈ moves_list s :=
            mem_moves_list s mv hmem
          have hchild := ih bs false (s.do_move ⟨mv, s.current_piece_turn⟩) hrec
          rw [minimax_succ_true f s hs, maxLoop_snd]
          exact Val.blt_false_trans (supV_not_blt_elem _ _ _ _ hmv2) hchild

theorem chkLE_bound (c : Int) :
    ∀ (fuel : Nat) (st : Strat) (side : Bool) (s : State),
      chkLE c fuel st side s = true → (Val.num c).blt (minimax fuel s (!side)).2 = false := by
  intro fuel
  induction fuel with
  | zero =>
    intro st side s h
    cases hs : s.has_ended with
    | some sc =>
      rw [minimax_terminal 0 s (!side) sc hs]
      rw [chkLE_terminal c 0 st side s sc hs] at h
      simp only [decide_eq_true_eq] at h
      simp only [Val.blt, decide_eq_false_iff_not]
      omega
    | none =>
      rw [chkLE_zero c st side s hs] at h
      cases h
  | succ f ih =>
    intro st side s h
    cases hs : s.has_ended with
    | some sc =>
      rw [minimax_terminal _ s (!side) sc hs]
      rw [chkLE_terminal c _ st side s sc hs] at h
      simp only [decide_eq_true_eq] at h
      simp only [Val.blt, decide_eq_false_iff_not]
      omega
    | none =>
      cases side
      · rw [chkLE_succ_false c f st s hs] at h
        rw [show (!false) = true from rfl, minimax_succ_true f s hs, maxLoop_snd]
        apply supV_not_blt_of_all
        · rfl
        · intro m hm
          obtain ⟨mi, mp⟩ := m
          obtain ⟨hmi, hmp⟩ := moves_list_shape s ⟨mi, mp⟩ hm
          simp only at hmi hmp
          subst hmp
          rw [List.all_eq_true] at h
          have hj := h mi hmi
          cases hfind : findStrat st mi with
          | none => rw [hfind] at hj; cases hj
          | some t =>
            rw [hfind] at hj
            have := ih t true (s.do_move ⟨mi, s.current_piece_turn⟩) hj
            simpa using this
      · rw [chkLE_succ_true c f st s hs] at h
        cases hsp : stratPlay st with
        | none => rw [hsp] at h; cases h
        | some p =>
          obtain ⟨mv, bs⟩ := p
          rw [hsp] at h
          simp only [Bool.and_eq_true] at h
          obtain ⟨hmv, hrec⟩ := h
          have hmem : mv ∈ s.open_tiles := mem_of_contains hmv
          have hmv2 : (⟨mv, s.current_piece_turn⟩ : Move) ∈ moves_list s :=
            mem_moves_list s mv hmem
          have hchild := ih bs false (s.do_move ⟨mv, s.current_piece_turn⟩) hrec
          simp only [Bool.not_false] at hchild
          rw [show (!true) = false from rfl, minimax_succ_false f s hs, minLoop_snd]
          exact Val.blt_false_trans hchild
            (infV_not_blt_elem (fun m => (minimax f (s.do_move m) true).2) (moves_list s)
              Val.pinf ⟨mv, s.current_piece_turn⟩ hmv2)

/-! Lines of the grid and their bit masks. -/

/-- Index triples of the eight winning lines, listed in the order of the
corresponding masks in win_states: rows 0 to 2, columns 2, 1, 0, the main
diagonal, the anti diagonal. -/
def lineTriples : List (List Nat) :=
  [[0, 1, 2], [3, 4, 5], [6, 7, 8], [2, 5, 8], [1, 4, 7], [0, 3, 6], [0, 4, 8], [2, 4, 6]]

/-- Predicate: the mask holds all three cells of some winning line. -/
def lineWin (bits : Nat) : Prop :=
  ∃ tr ∈ lineTriples, ∀ i ∈ tr, bits.testBit i = true

instance decidableLineWin (bits : Nat) : Decidable (lineWin bits) :=
  inferInstanceAs (Decidable (∃ tr ∈ lineTriples, ∀ i ∈ tr, bits.testBit i = true))

/-- Predicate: neither player marks cell i. -/
def cellEmpty (s : State) (i : Nat) : Prop :=
  s.bitsX.testBit i = false ∧ s.bitsO.testBit i = false

theorem land_self_iff (x w : Nat) :
    x &&& w = w ↔ ∀ i, w.testBit i = true → x.testBit i = true := by
  constructor
  · intro h i hw
    have h2 := congrArg (fun t => t.testBit i) h
    simp only [Nat.testBit_land] at h2
    rw [hw] at h2
    simpa using h2
  · intro h
    apply Nat.eq_of_testBit_eq
    intro i
    rw [Nat.testBit_land]
    cases hw : w.testBit i
    · simp
    · simp [h i hw]

theorem testBit_of_lt {w b i : Nat} (hw : w < 2 ^ b) (hb : b ≤ i) : w.testBit i = false := by
  apply Nat.testBit_lt_two_pow
  calc w < 2 ^ b := hw
    _ ≤ 2 ^ i := Nat.pow_le_pow_right (by norm_num) hb

theorem mask_line_iff (x w : Nat) (tr : List Nat) (hw : w < 2 ^ 9)
    (hch : ∀ i, i < 9 → (w.testBit i = true ↔ i ∈ tr)) (htr : ∀ i ∈ tr, i < 9) :
    x &&& w = w ↔ ∀ i ∈ tr, x.testBit i = true := by
  rw [land_self_iff]
  constructor
  · intro h i hi
    exact h i ((hch i (htr i hi)).mpr hi)
  · intro h i hw2
    by_cases hi9 : i < 9
    · exact h i ((hch i hi9).mp hw2)
    · rw [testBit_of_lt hw (by omega)] at hw2
      cases hw2

theorem exists_win_mask_iff (x : Nat) :
    (∃ w ∈ win_states, x &&& w = w) ↔ lineWin x := by
  unfold lineWin
  constructor
  · rintro ⟨w, hw, h⟩
    simp only [win_states, List.mem_cons, List.not_mem_nil, or_false] at hw
    rcases hw with rfl | rfl | rfl | rfl | rfl | rfl | rfl | rfl
    · exact ⟨[0, 1, 2], by simp [lineTriples],
        (mask_line_iff x _ _ (by norm_num) (by decide) (by decide)).mp h⟩
    · exact ⟨[3, 4, 5], by simp [lineTriples],
        (mask_line_iff x _ _ (by norm_num) (by decide) (by decide)).mp h⟩
    · exact ⟨[6, 7, 8], by simp [lineTriples],
        (mask_line_iff x _ _ (by norm_num) (by decide) (by decide)).mp h⟩
    · exact ⟨[2, 5, 8], by simp [lineTriples],
        (mask_line_iff x _ _ (by norm_num) (by decide) (by decide)).mp h⟩
    · exact ⟨[1, 4, 7], by simp [lineTriples],
        (mask_line_iff x _ _ (by norm_num) (by decide) (by decide)).mp h⟩
    · exact ⟨[0, 3, 6], by simp [lineTriples],
        (mask_line_iff x _ _ (by norm_num) (by decide) (by decide)).mp h⟩
    · exact ⟨[0, 4, 8], by simp [lineTriples],
        (mask_line_iff x _ _ (by norm_num) (by decide) (by decide)).mp h⟩
    · exact ⟨[2, 4, 6], by simp [lineTriples],
        (mask_line_iff x _ _ (by norm_num) (by decide) (by decide)).mp h⟩
  · rintro ⟨tr, htr, h⟩
    simp only [lineTriples, List.mem_cons, List.not_mem_nil, or_false] at htr
    rcases htr with rfl | rfl | rfl | rfl | rfl | rfl | rfl | rfl
    · exact ⟨7, by simp [win_states],
        (mask_line_iff x 7 _ (by norm_num) (by decide) (by decide)).mpr h⟩
    · exact ⟨56, by simp [win_states],
        (mask_line_iff x 56 _ (by norm_num) (by decide) (by decide)).mpr h⟩
    · exact ⟨448, by simp [win_states],
        (mask_line_iff x 448 _ (by norm_num) (by decide) (by decide)).mpr h⟩
    · exact ⟨292, by simp [win_states],
        (mask_line_iff x 292 _ (by norm_num) (by decide) (by decide)).mpr h⟩
    · exact ⟨146, by simp [win_states],
        (mask_line_iff x 146 _ (by norm_num) (by decide) (by decide)).mpr h⟩
    · exact ⟨73, by simp [win_states],
        (mask_line_iff x 73 _ (by norm_num) (by decide) (by decide)).mpr h⟩
    · exact ⟨273, by simp [win_states],
        (mask_line_iff x 273 _ (by norm_num) (by decide) (by decide)).mpr h⟩
    · exact ⟨84, by simp [win_states],
        (mask_line_iff x 84 _ (by norm_num) (by decide) (by decide)).mpr h⟩

/-! Behaviour of the scanning loop of has_ended. -/

theorem winScan_none_iff (x o : Nat) :
    ∀ l : List Nat, winScan x o l = none ↔ ∀ w ∈ l, ¬x &&& w = w ∧ ¬o &&& w = w := by
  intro l
  induction l with
  | nil => simp [winScan]
  | cons w ws ih =>
    rw [List.forall_mem_cons]
    by_cases hx : x &&& w = w
    · simp [winScan, hx]
    · by_cases ho : o &&& w = w
      · simp [winScan, hx, ho]
      · simp [winScan, hx, ho, ih]

theorem winScan_win (x o : Nat) :
    ∀ l : List Nat, winScan x o l = some .Win → ∃ w ∈ l, x &&& w = w := by
  intro l
  induction l with
  | nil => intro h; cases h
  | cons w ws ih =>
    intro h
    by_cases hx : x &&& w = w
    · exact ⟨w, List.mem_cons_self w ws, hx⟩
    · by_cases ho : o &&& w = w
      · simp [winScan, hx, ho] at h
      · simp only [winScan, beq_iff_eq, if_neg hx, if_neg ho] at h
        obtain ⟨w2, hw2, hxw⟩ := ih h
        exact ⟨w2, List.mem_cons_of_mem w hw2, hxw⟩

theorem winScan_lose (x o : Nat) :
    ∀ l : List Nat, winScan x o l = some .Lose → ∃ w ∈ l, o &&& w = w := by
  intro l
  induction l with
  | nil => intro h; cases h
  | cons w ws ih =>
    intro h
    by_cases hx : x &&& w = w
    · simp [winScan, hx] at h
    · by_cases ho : o &&& w = w
      · exact ⟨w, List.mem_cons_self w ws, ho⟩
      · simp only [winScan, beq_iff_eq, if_neg hx, if_neg ho] at h
        obtain ⟨w2, hw2, how⟩ := ih h
        exact ⟨w2, List.mem_cons_of_mem w hw2, how⟩

theorem winScan_no_draw (x o : Nat) :
    ∀ l : List Nat, winScan x o l ≠ some .Draw := by
  intro l
  induction l with
  | nil => intro h; cases h
  | cons w ws ih =>
    intro h
    by_cases hx : x &&& w = w
    · simp [winScan, hx] at h
    · by_cases ho : o &&& w = w
      · simp [winScan, hx, ho] at h
      · simp only [winScan, beq_iff_eq, if_neg hx, if_neg ho] at h
        exact ih h

theorem has_ended_of_scan (s : State) (sc : Score)
    (h : winScan s.bitsX s.bitsO win_states = some sc) : s.has_ended = some sc := by
  unfold State.has_ended
  rw [h]

theorem cellEmpty_iff (s : State) (i : Nat) :
    cellEmpty s i ↔ (s.bitsX ||| s.bitsO).testBit i = false := by
  unfold cellEmpty
  rw [Nat.testBit_lor]
  cases hx : s.bitsX.testBit i <;> cases ho : s.bitsO.testBit i <;> simp

theorem is_draw_false_iff (s : State) :
    s.is_draw = false ↔ ∃ i, i < 9 ∧ (s.bitsX ||| s.bitsO).testBit i = false := by
  rw [← Bool.not_eq_true, is_draw_iff]
  push_neg
  constructor
  · rintro ⟨i, hi, hbit⟩
    exact ⟨i, hi, by simpa using hbit⟩
  · rintro ⟨i, hi, hbit⟩
    exact ⟨i, hi, by simp [hbit]⟩

theorem not_lineWin_of_scan_none (x o : Nat)
    (h : winScan x o win_states = none) : ¬lineWin x ∧ ¬lineWin o := by
  have hall := (winScan_none_iff x o win_states).mp h
  constructor
  · intro hw
    obtain ⟨w, hwmem, hxw⟩ := (exists_win_mask_iff x).mpr hw
    exact (hall w hwmem).1 hxw
  · intro hw
    obtain ⟨w, hwmem, how⟩ := (exists_win_mask_iff o).mpr hw
    exact (hall w hwmem).2 how

theorem scan_none_of_not_lineWin (x o : Nat)
    (hx : ¬lineWin x) (ho : ¬lineWin o) : winScan x o win_states = none := by
  apply (winScan_none_iff x o win_states).mpr
  intro w hw
  constructor
  · intro hxw
    exact hx ((exists_win_mask_iff x).mp ⟨w, hw, hxw⟩)
  · intro how
    exact ho ((exists_win_mask_iff o).mp ⟨w, hw, how⟩)

/-- C2: the outcome query scans exactly the eight winning lines.  A Win
verdict for a mark implies that mark holds a full line, any full line forces
a win verdict, the Draw verdict holds exactly when no line is full and no
cell is empty, and the game continues exactly when no line is full and some
cell is empty. -/
theorem has_ended_scans_lines (s : State) :
    (s.has_ended = some .Win → lineWin s.bitsX)
    ∧ (s.has_ended = some .Lose → lineWin s.bitsO)
    ∧ ((lineWin s.bitsX ∨ lineWin s.bitsO) →
        s.has_ended = some .Win ∨ s.has_ended = some .Lose)
    ∧ (s.has_ended = some .Draw ↔
        ¬lineWin s.bitsX ∧ ¬lineWin s.bitsO ∧ ∀ i, i < 9 → ¬cellEmpty s i)
    ∧ (s.has_ended = none ↔
        ¬lineWin s.bitsX ∧ ¬lineWin s.bitsO ∧ ∃ i, i < 9 ∧ cellEmpty s i) := by
  refine ⟨?_, ?_, ?_, ?_, ?_⟩
  · intro h
    unfold State.has_ended at h
    cases hw : winScan s.bitsX s.bitsO win_states with
    | some sc =>
      rw [hw] at h
      cases h
      obtain ⟨w, hwm, hxw⟩ := winScan_win s.bitsX s.bitsO win_states hw
      exact (exists_win_mask_iff s.bitsX).mp ⟨w, hwm, hxw⟩
    | none =>
      rw [hw] at h
      by_cases hd : s.is_draw <;> simp [hd] at h
  · intro h
    unfold State.has_ended at h
    cases hw : winScan s.bitsX s.bitsO win_states with
    | some sc =>
      rw [hw] at h
      cases h
      obtain ⟨w, hwm, how⟩ := winScan_lose s.bitsX s.bitsO win_states hw
      exact (exists_win_mask_iff s.bitsO).mp ⟨w, hwm, how⟩
    | none =>
      rw [hw] at h
      by_cases hd : s.is_draw <;> simp [hd] at h
  · intro h
    cases hw : winScan s.bitsX s.bitsO win_states with
    | some sc =>
      have hend := has_ended_of_scan s sc hw
      cases sc with
      | Win => exact Or.inl hend
      | Draw => exact absurd hw (winScan_no_draw s.bitsX s.bitsO win_states)
      | Lose => exact Or.inr hend
    | none =>
      have hnone := not_lineWin_of_scan_none s.bitsX s.bitsO hw
      rcases h with h | h
      · exact absurd h hnone.1
      · exact absurd h hnone.2
  · constructor
    · intro h
      unfold State.has_ended at h
      cases hw : winScan s.bitsX s.bitsO win_states with
      | some sc =>
        rw [hw] at h
        cases h
        exact absurd hw (winScan_no_draw s.bitsX s.bitsO win_states)
      | none =>
        rw [hw] at h
        by_cases hd : s.is_draw
        · have hnone := not_lineWin_of_scan_none s.bitsX s.bitsO hw
          refine ⟨hnone.1, hnone.2, ?_⟩
          intro i hi hcell
          have hbit := (is_draw_iff s).mp hd i hi
          rw [(cellEmpty_iff s i).mp hcell] at hbit
          cases hbit
        · simp [hd] at h
    · rintro ⟨hnx, hno, hfull⟩
      have hw := scan_none_of_not_lineWin s.bitsX s.bitsO hnx hno
      unfold State.has_ended
      rw [hw]
      have hd : s.is_draw = true := by
        apply (is_draw_iff s).mpr
        intro i hi
        by_contra hbit
        exact hfull i hi ((cellEmpty_iff s i).mpr (by simpa using hbit))
      rw [hd]
      rfl
  · constructor
    · intro h
      unfold State.has_ended at h
      cases hw : winScan s.bitsX s.bitsO win_states with
      | some sc => rw [hw] at h; cases h
      | none =>
        rw [hw] at h
        by_cases hd : s.is_draw
        · simp [hd] at h
        · have hnone := not_lineWin_of_scan_none s.bitsX s.bitsO hw
          refine ⟨hnone.1, hnone.2, ?_⟩
          obtain ⟨i, hi, hbit⟩ :=
            (is_draw_false_iff s).mp (Bool.not_eq_true s.is_draw ▸ Bool.of_not_eq_true hd)
          exact ⟨i, hi, (cellEmpty_iff s i).mpr hbit⟩
    · rintro ⟨hnx, hno, i, hi, hcell⟩
      have hw := scan_none_of_not_lineWin s.bitsX s.bitsO hnx hno
      unfold State.has_ended
      rw [hw]
      have hd : s.is_draw = false := by
        apply (is_draw_false_iff s).mpr
        exact ⟨i, hi, (cellEmpty_iff s i).mp hcell⟩
      rw [hd]
      rfl

/-- C10 counterexample: X holds column 0 (mask 73) and O holds column 1
(mask 146), both full lines, yet has_ended reports Score.Lose because the
column 1 mask precedes the column 0 mask in the win_states scan; the claimed
X priority fails. -/
theorem has_ended_double_win_counterexample :
    lineWin 73 ∧ lineWin 146
    ∧ State.has_ended ⟨73, 146, .X⟩ = some .Lose
    ∧ State.has_ended ⟨73, 146, .X⟩ ≠ some .Win := by
  refine ⟨by decide, by decide, by decide, by decide⟩

/-- C10 amended: when both channels hold complete lines, has_ended reports a
decided game with a win score, Score.Win or Score.Lose according to the first
full mask in the win_states scan order; X is checked first only within each
single mask, so the X channel does not always take priority. -/
theorem has_ended_double_win_amended (s : State)
    (hx : lineWin s.bitsX) (_ho : lineWin s.bitsO) :
    s.has_ended = some .Win ∨ s.has_ended = some .Lose := by
  cases hw : winScan s.bitsX s.bitsO win_states with
  | none =>
    obtain ⟨w, hwm, hxw⟩ := (exists_win_mask_iff s.bitsX).mpr hx
    exact absurd hxw ((winScan_none_iff s.bitsX s.bitsO win_states).mp hw w hwm).1
  | some sc =>
    have hend := has_ended_of_scan s sc hw
    cases sc with
    | Win => exact Or.inl hend
    | Draw => exact absurd hw (winScan_no_draw s.bitsX s.bitsO win_states)
    | Lose => exact Or.inr hend

/-- C10 amended witness at a concrete double-win board: X holds row 0 and O
holds row 1, and the scan reports a win score. -/
theorem has_ended_double_win_amended_witness :
    State.has_ended ⟨7, 56, .X⟩ = some .Win ∨ State.has_ended ⟨7, 56, .X⟩ = some .Lose :=
  has_ended_double_win_amended ⟨7, 56, .X⟩ (by decide) (by decide)

/-- C6: on a board whose outcome is already decided, minimax returns no move
and only the value, mapping Win (X won) to 1, Draw to 0 and Lose (O won) to
minus 1, for every fuel and for both search modes. -/
theorem minimax_terminal_value_only (fuel : Nat) (s : State) (b : Bool) (sc : Score)
    (h : s.has_ended = some sc) :
    minimax fuel s b = (none, .num sc.value)
    ∧ Score.value .Win = 1 ∧ Score.value .Draw = 0 ∧ Score.value .Lose = -1 :=
  ⟨minimax_terminal fuel s b sc h, rfl, rfl, rfl⟩

/-- C6 witness: the board with X across row 0 is terminal and the search
returns no move and value 1. -/
theorem minimax_terminal_value_only_witness :
    minimax 9 ⟨7, 0, .X⟩ true = (none, .num 1) :=
  (minimax_terminal_value_only 9 ⟨7, 0, .X⟩ true .Win (by decide)).1

/-- C1: the search on the all-empty board with maximizing_player true returns
value exactly 0: tic-tac-toe under optimal play by both sides is a draw.  The
two strategy certificates pin the value from both sides. -/
theorem minimax_empty_board_value_zero : (minimax 9 emptyState true).2 = .num 0 := by
  have hge : ((minimax 9 emptyState true).2).blt (.num 0) = false :=
    chkGE_bound 0 9 geTree true emptyState (by decide)
  have hle : (Val.num 0).blt (minimax 9 emptyState true).2 = false := by
    have h := chkLE_bound 0 9 leTree false emptyState (by decide)
    simpa using h
  exact Val.eq_of_not_blt hge hle

/-- C7: from the position reached by the legal sequence X (1,1), O (0,0),
X (1,0), O (0,1), with X to move, the search returns the move at cell 2 with
value exactly 1: X can force a win. -/
theorem minimax_fork_position_value_one :
    minimax 9 forkState true = (some ⟨2, .X⟩, .num 1)
    ∧ forkState.current_piece_turn = .X := by
  refine ⟨by decide, by decide⟩

/-- C3 counterexample: cell 0 holds the O mark, yet set_square accepts an X
there, because the guard inspects only the X channel; the resulting state has
both bits set at cell 0. -/
theorem set_square_opposing_mark_accepted :
    ((⟨0, 1, .X⟩ : State).bits .O).testBit 0 = true
    ∧ State.set_square ⟨0, 1, .X⟩ 0 .X = .ok ⟨1, 1, .X⟩ := by
  refine ⟨by decide, rfl⟩

theorem land_two_pow_ne_zero (x i : Nat) : (x &&& 2 ^ i != 0) = x.testBit i := by
  cases h : x.testBit i
  · have hz : x &&& 2 ^ i = 0 := by
      apply Nat.eq_of_testBit_eq
      intro j
      rw [Nat.testBit_land, Nat.zero_testBit]
      by_cases hj : j = i
      · subst hj
        rw [h]
        simp
      · rw [Nat.testBit_two_pow_of_ne (fun hh => hj hh.symm)]
        simp
    rw [hz]
    rfl
  · have h2 : (x &&& 2 ^ i).testBit i = true := by
      rw [Nat.testBit_land, h, Nat.testBit_two_pow_self]
      rfl
    have hnz : x &&& 2 ^ i ≠ 0 := by
      intro h0
      rw [h0, Nat.zero_testBit] at h2
      cases h2
    simp [hnz]

/-- C3 amended: set_square fails with CellOccupied exactly when the channel
of the mark being placed already holds the target cell, leaving the board
unchanged; when that channel is free the call succeeds and sets the bit, even
if the opposing mark occupies the cell. -/
theorem set_square_rejects_only_own_mark (s : State) (ind : Nat) (p : Piece) :
    (s.set_square ind p = .error .cellOccupied ↔ (s.bits p).testBit ind = true)
    ∧ ((s.bits p).testBit ind = false → s.set_square ind p = .ok (s.place_bit ind p)) := by
  cases hb : (s.bits p).testBit ind <;>
    simp [State.set_square, land_two_pow_ne_zero, hb]

/-- C3 amended witness: with the O mark on cell 0 and the X channel free,
set_square for X succeeds. -/
theorem set_square_rejects_only_own_mark_witness :
    State.set_square ⟨0, 1, .X⟩ 0 .X = .ok (State.place_bit ⟨0, 1, .X⟩ 0 .X) :=
  (set_square_rejects_only_own_mark ⟨0, 1, .X⟩ 0 .X).2 (by decide)

/-- C5: the off-by-one bounds guard of Board.set_tile.  A move at x = 3 is
outside the grid but passes the guard, so the array store fails with the
untyped index error instead of the typed out-of-bounds error; x = 4 is caught
by the guard; and the bitboard set_square silently accepts the out-of-range
linear index 10, setting a bit outside the board. -/
theorem set_tile_bounds_code_bug :
    boardEmpty.set_tile ⟨3, 0, .X⟩ = .error .indexError
    ∧ boardEmpty.set_tile ⟨4, 0, .X⟩ = .error .outOfBounds
    ∧ State.set_square ⟨0, 0, .X⟩ 10 .X = .ok ⟨1024, 0, .X⟩ := by
  refine ⟨rfl, rfl, rfl⟩

/-! Properties of the legal move list. -/

/-- Number of occupied cells of the board. -/
def occupiedCount (s : State) : Nat :=
  ((List.range 9).filter (fun i => (s.bitsX ||| s.bitsO).testBit i)).length

theorem length_filter_split (p : Nat → Bool) :
    ∀ l : List Nat, (l.filter p).length + (l.filter (fun a => !p a)).length = l.length := by
  intro l
  induction l with
  | nil => rfl
  | cons a l ih =>
    cases h : p a <;> simp [List.filter_cons, h] <;> omega

/-- C8: for a non-terminal board, legal_moves lists exactly one move per
empty cell, in ascending linear cell index order, every move carrying the
requested mark, and its length plus the number of occupied cells is 9. -/
theorem legal_moves_spec (s : State) (mark : Piece) (_h : s.has_ended = none) :
    ((legal_moves s mark).map Move.ind = s.open_tiles)
    ∧ List.Pairwise (· < ·) ((legal_moves s mark).map Move.ind)
    ∧ (∀ m ∈ legal_moves s mark, m.piece = mark)
    ∧ (∀ i, (∃ m ∈ legal_moves s mark, m.ind = i) ↔ i < 9 ∧ cellEmpty s i)
    ∧ (legal_moves s mark).length + occupiedCount s = 9 := by
  have hmap : (legal_moves s mark).map Move.ind = s.open_tiles := by
    unfold legal_moves
    rw [List.map_map]
    exact List.map_id _
  have hsorted : List.Pairwise (· < ·) (s.open_tiles) := by
    unfold State.open_tiles
    exact List.Pairwise.sublist (List.filter_sublist _) (List.sorted_lt_range 9)
  refine ⟨hmap, hmap ▸ hsorted, ?_, ?_, ?_⟩
  · intro m hm
    unfold legal_moves at hm
    rcases List.mem_map.mp hm with ⟨i, _, rfl⟩
    rfl
  · intro i
    constructor
    · rintro ⟨m, hm, rfl⟩
      unfold legal_moves at hm
      rcases List.mem_map.mp hm with ⟨j, hj, rfl⟩
      have := (open_tiles_mem s j).mp hj
      exact ⟨this.1, (cellEmpty_iff s j).mpr this.2⟩
    · rintro ⟨hi, hcell⟩
      refine ⟨⟨i, mark⟩, ?_, rfl⟩
      unfold legal_moves
      exact List.mem_map_of_mem _
        ((open_tiles_mem s i).mpr ⟨hi, (cellEmpty_iff s i).mp hcell⟩)
  · have hlen : (legal_moves s mark).length = (s.open_tiles).length := by
      unfold legal_moves
      exact List.length_map _ _
    have hcongr : s.open_tiles =
        (List.range 9).filter (fun n => !(s.bitsX ||| s.bitsO).testBit n) := by
      unfold State.open_tiles
      apply List.filter_congr
      intro a ha
      rw [shift_and_one, open_bit _ _ (List.mem_range.mp ha)]
    rw [hlen, hcongr, occupiedCount]
    have hsplit := length_filter_split (fun n => (s.bitsX ||| s.bitsO).testBit n) (List.range 9)
    simp only [List.length_range] at hsplit
    omega

/-- C8 witness: the projection of the move list of the empty board onto cell
indices is exactly the open tile list. -/
theorem legal_moves_spec_witness :
    (legal_moves emptyState .X).map Move.ind = State.open_tiles emptyState :=
  (legal_moves_spec emptyState .X (by decide)).1

/-! Agreement of the two outcome queries. -/

theorem lineWin_iff (w : Nat) :
    lineWin w ↔
      (w.testBit 0 = true ∧ w.testBit 1 = true ∧ w.testBit 2 = true)
      ∨ (w.testBit 3 = true ∧ w.testBit 4 = true ∧ w.testBit 5 = true)
      ∨ (w.testBit 6 = true ∧ w.testBit 7 = true ∧ w.testBit 8 = true)
      ∨ (w.testBit 2 = true ∧ w.testBit 5 = true ∧ w.testBit 8 = true)
      ∨ (w.testBit 1 = true ∧ w.testBit 4 = true ∧ w.testBit 7 = true)
      ∨ (w.testBit 0 = true ∧ w.testBit 3 = true ∧ w.testBit 6 = true)
      ∨ (w.testBit 0 = true ∧ w.testBit 4 = true ∧ w.testBit 8 = true)
      ∨ (w.testBit 2 = true ∧ w.testBit 4 = true ∧ w.testBit 6 = true) := by
  constructor
  · rintro ⟨tr, htr, h⟩
    simp only [lineTriples, List.mem_cons, List.not_mem_nil, or_false] at htr
    rcases htr with rfl | rfl | rfl | rfl | rfl | rfl | rfl | rfl
    · exact Or.inl ⟨h 0 (by simp), h 1 (by simp), h 2 (by simp)⟩
    · exact Or.inr (Or.inl ⟨h 3 (by simp), h 4 (by simp), h 5 (by simp)⟩)
    · exact Or.inr (Or.inr (Or.inl ⟨h 6 (by simp), h 7 (by simp), h 8 (by simp)⟩))
    · exact Or.inr (Or.inr (Or.inr (Or.inl ⟨h 2 (by simp), h 5 (by simp), h 8 (by simp)⟩)))
    · exact Or.inr (Or.inr (Or.inr (Or.inr (Or.inl ⟨h 1 (by simp), h 4 (by simp), h 7 (by simp)⟩))))
    · exact Or.inr (Or.inr (Or.inr (Or.inr (Or.inr (Or.inl
        ⟨h 0 (by simp), h 3 (by simp), h 6 (by simp)⟩)))))
    · exact Or.inr (Or.inr (Or.inr (Or.inr (Or.inr (Or.inr (Or.inl
        ⟨h 0 (by simp), h 4 (by simp), h 8 (by simp)⟩))))))
    · exact Or.inr (Or.inr (Or.inr (Or.inr (Or.inr (Or.inr (Or.inr
        ⟨h 2 (by simp), h 4 (by simp), h 6 (by simp)⟩))))))
  · rintro (⟨a, b, c⟩ | ⟨a, b, c⟩ | ⟨a, b, c⟩ | ⟨a, b, c⟩ | ⟨a, b, c⟩ | ⟨a, b, c⟩ |
      ⟨a, b, c⟩ | ⟨a, b, c⟩)
    · exact ⟨[0, 1, 2], by simp [lineTriples], by intro i hi; fin_cases hi <;> assumption⟩
    · exact ⟨[3, 4, 5], by simp [lineTriples], by intro i hi; fin_cases hi <;> assumption⟩
    · exact ⟨[6, 7, 8], by simp [lineTriples], by intro i hi; fin_cases hi <;> assumption⟩
    · exact ⟨[2, 5, 8], by simp [lineTriples], by intro i hi; fin_cases hi <;> assumption⟩
    · exact ⟨[1, 4, 7], by simp [lineTriples], by intro i hi; fin_cases hi <;> assumption⟩
    · exact ⟨[0, 3, 6], by simp [lineTriples], by intro i hi; fin_cases hi <;> assumption⟩
    · exact ⟨[0, 4, 8], by simp [lineTriples], by intro i hi; fin_cases hi <;> assumption⟩
    · exact ⟨[2, 4, 6], by simp [lineTriples], by intro i hi; fin_cases hi <;> assumption⟩

theorem disjoint_bits {x o : Nat} (hd : x &&& o = 0) (k : Nat) (hx : x.testBit k = true) :
    o.testBit k = false := by
  cases ho : o.testBit k
  · rfl
  · have h2 := congrArg (fun t => t.testBit k) hd
    simp [Nat.testBit_land, hx, ho] at h2

theorem arrOf_cell_x (x o : Nat) (y xc : Fin 3) :
    ((arrOf x o).cells y xc == Tile.ofPiece .X) = x.testBit (3 * y.val + xc.val) := by
  show ((if x.testBit (3 * y.val + xc.val) then Tile.X
         else if o.testBit (3 * y.val + xc.val) then Tile.O else Tile.Empty) == Tile.X)
      = x.testBit (3 * y.val + xc.val)
  cases hx : x.testBit (3 * y.val + xc.val) <;>
    cases ho : o.testBit (3 * y.val + xc.val) <;> simp [hx, ho]

theorem arrOf_cell_o {x o : Nat} (hd : x &&& o = 0) (y xc : Fin 3) :
    ((arrOf x o).cells y xc == Tile.ofPiece .O) = o.testBit (3 * y.val + xc.val) := by
  show ((if x.testBit (3 * y.val + xc.val) then Tile.X
         else if o.testBit (3 * y.val + xc.val) then Tile.O else Tile.Empty) == Tile.O)
      = o.testBit (3 * y.val + xc.val)
  cases hx : x.testBit (3 * y.val + xc.val)
  · cases ho : o.testBit (3 * y.val + xc.val) <;> simp [ho]
  · rw [disjoint_bits hd _ hx]
    simp

theorem arrOf_cell_empty (x o : Nat) (y xc : Fin 3) :
    ((arrOf x o).cells y xc == Tile.Empty) = !(x ||| o).testBit (3 * y.val + xc.val) := by
  show ((if x.testBit (3 * y.val + xc.val) then Tile.X
         else if o.testBit (3 * y.val + xc.val) then Tile.O else Tile.Empty) == Tile.Empty)
      = !(x ||| o).testBit (3 * y.val + xc.val)
  rw [Nat.testBit_lor]
  cases hx : x.testBit (3 * y.val + xc.val) <;>
    cases ho : o.testBit (3 * y.val + xc.val) <;> simp [hx, ho]

theorem fin3_val_zero : ((0 : Fin 3)).val = 0 := rfl

theorem fin3_val_one : ((1 : Fin 3)).val = 1 := rfl

theorem fin3_val_two : ((2 : Fin 3)).val = 2 := rfl

theorem is_win_arrOf_x (x o : Nat) : ((arrOf x o).is_win .X = true) ↔ lineWin x := by
  rw [lineWin_iff]
  unfold BoardArr.is_win
  simp only [arrOf_cell_x, fin3_val_zero, fin3_val_one, fin3_val_two, Nat.reduceMul,
    Nat.reduceAdd, Nat.mul_zero, Nat.zero_add, Nat.add_zero, Bool.or_eq_true, Bool.and_eq_true]
  constructor
  · rintro (((((⟨⟨a, b⟩, c⟩ | ⟨⟨a, b⟩, c⟩) | ⟨⟨a, b⟩, c⟩) | (⟨⟨a, b⟩, c⟩ | ⟨⟨a, b⟩, c⟩) | ⟨⟨a, b⟩, c⟩) | ⟨⟨a, b⟩, c⟩) | ⟨⟨a, b⟩, c⟩)
    · exact Or.inr (Or.inr (Or.inr (Or.inr (Or.inr (Or.inl ⟨a, b, c⟩)))))
    · exact Or.inr (Or.inr (Or.inr (Or.inr (Or.inl ⟨a, b, c⟩))))
    · exact Or.inr (Or.inr (Or.inr (Or.inl ⟨a, b, c⟩)))
    · exact Or.inl ⟨a, b, c⟩
    · exact Or.inr (Or.inl ⟨a, b, c⟩)
    · exact Or.inr (Or.inr (Or.inl ⟨a, b, c⟩))
    · exact Or.inr (Or.inr (Or.inr (Or.inr (Or.inr (Or.inr (Or.inl ⟨a, b, c⟩))))))
    · exact Or.inr (Or.inr (Or.inr (Or.inr (Or.inr (Or.inr (Or.inr ⟨a, b, c⟩))))))
  · rintro (⟨a, b, c⟩ | ⟨a, b, c⟩ | ⟨a, b, c⟩ | ⟨a, b, c⟩ | ⟨a, b, c⟩ | ⟨a, b, c⟩ |
      ⟨a, b, c⟩ | ⟨a, b, c⟩)
    · exact Or.inl (Or.inl (Or.inr (Or.inl (Or.inl ⟨⟨a, b⟩, c⟩))))
    · exact Or.inl (Or.inl (Or.inr (Or.inl (Or.inr ⟨⟨a, b⟩, c⟩))))
    · exact Or.inl (Or.inl (Or.inr (Or.inr ⟨⟨a, b⟩, c⟩)))
    · exact Or.inl (Or.inl (Or.inl (Or.inr ⟨⟨a, b⟩, c⟩)))
    · exact Or.inl (Or.inl (Or.inl (Or.inl (Or.inr ⟨⟨a, b⟩, c⟩))))
    · exact Or.inl (Or.inl (Or.inl (Or.inl (Or.inl ⟨⟨a, b⟩, c⟩))))
    · exact Or.inl (Or.inr ⟨⟨a, b⟩, c⟩)
    · exact Or.inr ⟨⟨a, b⟩, c⟩

theorem is_win_arrOf_o {x o : Nat} (hd : x &&& o = 0) :
    ((arrOf x o).is_win .O = true) ↔ lineWin o := by
  rw [lineWin_iff]
  unfold BoardArr.is_win
  simp only [arrOf_cell_o hd, fin3_val_zero, fin3_val_one, fin3_val_two, Nat.reduceMul,
    Nat.reduceAdd, Nat.mul_zero, Nat.zero_add, Nat.add_zero, Bool.or_eq_true, Bool.and_eq_true]
  constructor
  · rintro (((((⟨⟨a, b⟩, c⟩ | ⟨⟨a, b⟩, c⟩) | ⟨⟨a, b⟩, c⟩) | (⟨⟨a, b⟩, c⟩ | ⟨⟨a, b⟩, c⟩) | ⟨⟨a, b⟩, c⟩) | ⟨⟨a, b⟩, c⟩) | ⟨⟨a, b⟩, c⟩)
    · exact Or.inr (Or.inr (Or.inr (Or.inr (Or.inr (Or.inl ⟨a, b, c⟩)))))
    · exact Or.inr (Or.inr (Or.inr (Or.inr (Or.inl ⟨a, b, c⟩))))
    · exact Or.inr (Or.inr (Or.inr (Or.inl ⟨a, b, c⟩)))
    · exact Or.inl ⟨a, b, c⟩
    · exact Or.inr (Or.inl ⟨a, b, c⟩)
    · exact Or.inr (Or.inr (Or.inl ⟨a, b, c⟩))
    · exact Or.inr (Or.inr (Or.inr (Or.inr (Or.inr (Or.inr (Or.inl ⟨a, b, c⟩))))))
    · exact Or.inr (Or.inr (Or.inr (Or.inr (Or.inr (Or.inr (Or.inr ⟨a, b, c⟩))))))
  · rintro (⟨a, b, c⟩ | ⟨a, b, c⟩ | ⟨a, b, c⟩ | ⟨a, b, c⟩ | ⟨a, b, c⟩ | ⟨a, b, c⟩ |
      ⟨a, b, c⟩ | ⟨a, b, c⟩)
    · exact Or.inl (Or.inl (Or.inr (Or.inl (Or.inl ⟨⟨a, b⟩, c⟩))))
    · exact Or.inl (Or.inl (Or.inr (Or.inl (Or.inr ⟨⟨a, b⟩, c⟩))))
    · exact Or.inl (Or.inl (Or.inr (Or.inr ⟨⟨a, b⟩, c⟩)))
    · exact Or.inl (Or.inl (Or.inl (Or.inr ⟨⟨a, b⟩, c⟩)))
    · exact Or.inl (Or.inl (Or.inl (Or.inl (Or.inr ⟨⟨a, b⟩, c⟩))))
    · exact Or.inl (Or.inl (Or.inl (Or.inl (Or.inl ⟨⟨a, b⟩, c⟩))))
    · exact Or.inl (Or.inr ⟨⟨a, b⟩, c⟩)
    · exact Or.inr ⟨⟨a, b⟩, c⟩

theorem arr_is_draw_iff (x o : Nat) :
    ((arrOf x o).is_draw = true) ↔ ∀ k, k < 9 → (x ||| o).testBit k = true := by
  unfold BoardArr.is_draw
  simp only [arrOf_cell_empty, fin3_val_zero, fin3_val_one, fin3_val_two, Nat.reduceMul,
    Nat.reduceAdd, Nat.mul_zero, Nat.zero_add, Nat.add_zero, Bool.not_or, Bool.not_not,
    Bool.and_eq_true]
  constructor
  · rintro ⟨⟨⟨⟨⟨⟨⟨⟨h0, h1⟩, h2⟩, h3⟩, h4⟩, h5⟩, h6⟩, h7⟩, h8⟩ k hk
    interval_cases k <;> assumption
  · intro h
    exact ⟨⟨⟨⟨⟨⟨⟨⟨h 0 (by omega), h 1 (by omega)⟩, h 2 (by omega)⟩, h 3 (by omega)⟩,
      h 4 (by omega)⟩, h 5 (by omega)⟩, h 6 (by omega)⟩, h 7 (by omega)⟩, h 8 (by omega)⟩

theorem is_draw_arrOf (x o : Nat) (t : Piece) :
    (arrOf x o).is_draw = State.is_draw ⟨x, o, t⟩ := by
  cases hdr : State.is_draw ⟨x, o, t⟩
  · rw [Bool.eq_false_iff]
    intro harr
    have h2 : State.is_draw ⟨x, o, t⟩ = true :=
      (is_draw_iff ⟨x, o, t⟩).mpr ((arr_is_draw_iff x o).mp harr)
    rw [hdr] at h2
    cases h2
  · exact (arr_is_draw_iff x o).mpr ((is_draw_iff ⟨x, o, t⟩).mp hdr)

theorem has_ended_win_of_lines (x o : Nat) (t : Piece) (hx : lineWin x) (ho : ¬lineWin o) :
    State.has_ended ⟨x, o, t⟩ = some .Win := by
  cases hsc : winScan x o win_states with
  | none => exact absurd hx (not_lineWin_of_scan_none x o hsc).1
  | some sc =>
    have hend := has_ended_of_scan ⟨x, o, t⟩ sc hsc
    cases sc with
    | Win => exact hend
    | Draw => exact absurd hsc (winScan_no_draw x o win_states)
    | Lose =>
      obtain ⟨w, hw, how⟩ := winScan_lose x o win_states hsc
      exact absurd ((exists_win_mask_iff o).mp ⟨w, hw, how⟩) ho

theorem has_ended_lose_of_lines (x o : Nat) (t : Piece) (hx : ¬lineWin x) (ho : lineWin o) :
    State.has_ended ⟨x, o, t⟩ = some .Lose := by
  cases hsc : winScan x o win_states with
  | none => exact absurd ho (not_lineWin_of_scan_none x o hsc).2
  | some sc =>
    have hend := has_ended_of_scan ⟨x, o, t⟩ sc hsc
    cases sc with
    | Lose => exact hend
    | Draw => exact absurd hsc (winScan_no_draw x o win_states)
    | Win =>
      obtain ⟨w, hw, hxw⟩ := winScan_win x o win_states hsc
      exact absurd ((exists_win_mask_iff x).mp ⟨w, hw, hxw⟩) hx

theorem has_ended_no_lines (x o : Nat) (t : Piece) (hx : ¬lineWin x) (ho : ¬lineWin o) :
    State.has_ended ⟨x, o, t⟩ =
      (if State.is_draw ⟨x, o, t⟩ then some .Draw else none) := by
  unfold State.has_ended
  rw [scan_none_of_not_lineWin x o hx ho]

/-- C9 counterexample: the placement with X down column 0 and O down column 1
is a genuine single-mark-per-cell placement (the masks are disjoint), both
queries see a decided game, but the array query reports a win for X while the
bitboard query reports a win for O: the column 1 mask precedes the column 0
mask in the win_states table, while the array query checks X before O. -/
theorem outcome_queries_disagree :
    (73 : Nat) &&& 146 = 0
    ∧ outcomeArr (arrOf 73 146) = .Win .X
    ∧ outcomeBits ⟨73, 146, .X⟩ = .Win .O
    ∧ outcomeArr (arrOf 73 146) ≠ outcomeBits ⟨73, 146, .X⟩ := by
  refine ⟨by decide, by decide, by decide, by decide⟩

/-- C9 amended: on every placement of marks on the nine cells in which at
most one mark holds a complete line (which covers every board reachable by
legal alternating play), the bitboard outcome query and the array outcome
query agree: same winner, same draw verdict and same still-playing verdict.
On unreachable double-win placements the two queries can differ. -/
theorem outcome_queries_agree (x o : Nat) (t : Piece) (hd : x &&& o = 0)
    (hnb : ¬(lineWin x ∧ lineWin o)) :
    outcomeArr (arrOf x o) = outcomeBits ⟨x, o, t⟩ := by
  by_cases hx : lineWin x
  · have ho : ¬lineWin o := fun ho => hnb ⟨hx, ho⟩
    have hwx : (arrOf x o).is_win .X = true := (is_win_arrOf_x x o).mpr hx
    simp [outcomeArr, outcomeBits, hwx, has_ended_win_of_lines x o t hx ho]
  · have hwxf : (arrOf x o).is_win .X = false := by
      rw [Bool.eq_false_iff]
      intro hh
      exact hx ((is_win_arrOf_x x o).mp hh)
    by_cases ho : lineWin o
    · have hwo : (arrOf x o).is_win .O = true := (is_win_arrOf_o hd).mpr ho
      simp [outcomeArr, outcomeBits, hwxf, hwo, has_ended_lose_of_lines x o t hx ho]
    · have hwof : (arrOf x o).is_win .O = false := by
        rw [Bool.eq_false_iff]
        intro hh
        exact ho ((is_win_arrOf_o hd).mp hh)
      have harr := is_draw_arrOf x o t
      cases hdr : State.is_draw ⟨x, o, t⟩ <;>
        simp [outcomeArr, outcomeBits, hwxf, hwof, harr, hdr,
          has_ended_no_lines x o t hx ho]

/-- C9 amended witness at a concrete board: X across row 0, no O marks; both
queries report the X win. -/
theorem outcome_queries_agree_witness :
    outcomeArr (arrOf 7 0) = outcomeBits ⟨7, 0, .X⟩ :=
  outcome_queries_agree 7 0 .X (by decide) (by decide)

/-! Selection behaviour of the two loops: the returned move is the first
move attaining the final value, because only strict improvements replace the
running best move. -/

theorem maxLoop_fst (f : Move → Val) :
    ∀ (l : List Move) (bm : Option Move) (v : Val),
      (maxLoop f l bm v).1 =
        if supV f l v = v then bm
        else l.find? (fun m => decide (f m = supV f l v)) := by
  intro l
  induction l with
  | nil =>
    intro bm v
    simp [maxLoop, supV]
  | cons m ms ih =>
    intro bm v
    rw [show maxLoop f (m :: ms) bm v =
        (if v.blt (f m) = true then maxLoop f ms (some m) (f m) else maxLoop f ms bm v)
      from rfl]
    rw [show supV f (m :: ms) v = supV f ms (if v.blt (f m) = true then f m else v) from rfl]
    by_cases h : v.blt (f m) = true
    · rw [if_pos h, if_pos h, ih (some m) (f m)]
      have hne : supV f ms (f m) ≠ v := by
        intro heq
        have hge := supV_not_blt_init f ms (f m)
        rw [heq, h] at hge
        cases hge
      rw [if_neg hne]
      by_cases hcase : supV f ms (f m) = f m
      · rw [if_pos hcase]
        have hp : (fun m2 => decide (f m2 = supV f ms (f m))) m = true := by
          simp [hcase]
        exact (List.find?_cons_of_pos ms hp).symm
      · rw [if_neg hcase]
        have hp : ¬((fun m2 => decide (f m2 = supV f ms (f m))) m = true) := by
          simp only [decide_eq_true_eq]
          exact fun hh => hcase hh.symm
        exact (List.find?_cons_of_neg ms hp).symm
    · have hf : v.blt (f m) = false := by
        cases hb : v.blt (f m)
        · rfl
        · exact absurd hb h
      rw [if_neg h, if_neg h, ih bm v]
      by_cases hcase : supV f ms v = v
      · rw [if_pos hcase, if_pos hcase]
      · rw [if_neg hcase, if_neg hcase]
        have hfm : f m ≠ supV f ms v := by
          intro heq
          have h1 := supV_not_blt_init f ms v
          have h2 : v.blt (supV f ms v) = false := heq ▸ hf
          exact hcase (Val.eq_of_not_blt h1 h2)
        have hp : ¬((fun m2 => decide (f m2 = supV f ms v)) m = true) := by
          simp only [decide_eq_true_eq]
          exact hfm
        exact (List.find?_cons_of_neg ms hp).symm

theorem minLoop_fst (f : Move → Val) :
    ∀ (l : List Move) (bm : Option Move) (v : Val),
      (minLoop f l bm v).1 =
        if infV f l v = v then bm
        else l.find? (fun m => decide (f m = infV f l v)) := by
  intro l
  induction l with
  | nil =>
    intro bm v
    simp [minLoop, infV]
  | cons m ms ih =>
    intro bm v
    rw [show minLoop f (m :: ms) bm v =
        (if (f m).blt v = true then minLoop f ms (some m) (f m) else minLoop f ms bm v)
      from rfl]
    rw [show infV f (m :: ms) v = infV f ms (if (f m).blt v = true then f m else v) from rfl]
    by_cases h : (f m).blt v = true
    · rw [if_pos h, if_pos h, ih (some m) (f m)]
      have hne : infV f ms (f m) ≠ v := by
        intro heq
        have hge := infV_not_blt_init f ms (f m)
        rw [heq, h] at hge
        cases hge
      rw [if_neg hne]
      by_cases hcase : infV f ms (f m) = f m
      · rw [if_pos hcase]
        have hp : (fun m2 => decide (f m2 = infV f ms (f m))) m = true := by
          simp [hcase]
        exact (List.find?_cons_of_pos ms hp).symm
      · rw [if_neg hcase]
        have hp : ¬((fun m2 => decide (f m2 = infV f ms (f m))) m = true) := by
          simp only [decide_eq_true_eq]
          exact fun hh => hcase hh.symm
        exact (List.find?_cons_of_neg ms hp).symm
    · have hf : (f m).blt v = false := by
        cases hb : (f m).blt v
        · rfl
        · exact absurd hb h
      rw [if_neg h, if_neg h, ih bm v]
      by_cases hcase : infV f ms v = v
      · rw [if_pos hcase, if_pos hcase]
      · rw [if_neg hcase, if_neg hcase]
        have hfm : f m ≠ infV f ms v := by
          intro heq
          have h1 := infV_not_blt_init f ms v
          have h2 : (infV f ms v).blt v = false := heq ▸ hf
          exact hcase (Val.eq_of_not_blt h2 h1)
        have hp : ¬((fun m2 => decide (f m2 = infV f ms v)) m = true) := by
          simp only [decide_eq_true_eq]
          exact hfm
        exact (List.find?_cons_of_neg ms hp).symm

/-- C4: on a non-terminal board, when X (First) is to move the search run in
maximizing mode returns the first move, in move enumeration order, whose
child value attains the maximum of the child values, and when O (Second) is
to move the search run in minimizing mode returns the first move attaining
the minimum; an equal later value never replaces the current best move,
because the comparisons are strict. -/
theorem minimax_selects_first_best (fuel : Nat) (s : State) (h : s.has_ended = none) :
    (s.current_piece_turn = .X →
      ((minimax (fuel + 1) s true).1 =
          (moves_list s).find?
            (fun m => decide ((minimax fuel (s.do_move m) false).2 = (minimax (fuel + 1) s true).2))
        ∧ (∃ m ∈ moves_list s,
            (minimax fuel (s.do_move m) false).2 = (minimax (fuel + 1) s true).2)
        ∧ (∀ m ∈ moves_list s,
            ((minimax (fuel + 1) s true).2).blt ((minimax fuel (s.do_move m) false).2) = false)
        ∧ ((minimax (fuel + 1) s true).1).isSome = true))
    ∧ (s.current_piece_turn = .O →
      ((minimax (fuel + 1) s false).1 =
          (moves_list s).find?
            (fun m => decide ((minimax fuel (s.do_move m) true).2 = (minimax (fuel + 1) s false).2))
        ∧ (∃ m ∈ moves_list s,
            (minimax fuel (s.do_move m) true).2 = (minimax (fuel + 1) s false).2)
        ∧ (∀ m ∈ moves_list s,
            ((minimax fuel (s.do_move m) true).2).blt ((minimax (fuel + 1) s false).2) = false)
        ∧ ((minimax (fuel + 1) s false).1).isSome = true)) := by
  constructor
  · intro _
    have hval : (minimax (fuel + 1) s true).2 =
        supV (fun m => (minimax fuel (s.do_move m) false).2) (moves_list s) .ninf := by
      rw [minimax_succ_true fuel s h, maxLoop_snd]
    have hmove : (minimax (fuel + 1) s true).1 =
        if supV (fun m => (minimax fuel (s.do_move m) false).2) (moves_list s) .ninf = .ninf
        then none
        else (moves_list s).find? (fun m =>
          decide ((minimax fuel (s.do_move m) false).2 =
            supV (fun m2 => (minimax fuel (s.do_move m2) false).2) (moves_list s) .ninf)) := by
      rw [minimax_succ_true fuel s h, maxLoop_fst]
    obtain ⟨n, hn⟩ := supV_num_of_ne_nil (fun m => (minimax fuel (s.do_move m) false).2)
      (moves_list s) (moves_list_ne_nil s h) (fun m _ => minimax_num fuel (s.do_move m) false)
    have hne : supV (fun m => (minimax fuel (s.do_move m) false).2) (moves_list s) .ninf
        ≠ .ninf := by
      rw [hn]
      intro hh
      cases hh
    have hatt : ∃ m ∈ moves_list s, (minimax fuel (s.do_move m) false).2 =
        supV (fun m2 => (minimax fuel (s.do_move m2) false).2) (moves_list s) .ninf := by
      rcases supV_attained (fun m => (minimax fuel (s.do_move m) false).2)
          (moves_list s) .ninf with heq | hex
      · exact absurd heq hne
      · exact hex
    refine ⟨?_, ?_, ?_, ?_⟩
    · rw [hval, hmove, if_neg hne]
    · rw [hval]
      exact hatt
    · rw [hval]
      intro m hm
      exact supV_not_blt_elem (fun m2 => (minimax fuel (s.do_move m2) false).2)
        (moves_list s) .ninf m hm
    · rw [hmove, if_neg hne]
      obtain ⟨m0, hm0, heq⟩ := hatt
      simp only [List.find?_isSome]
      exact ⟨m0, hm0, by simp [heq]⟩
  · intro _
    have hval : (minimax (fuel + 1) s false).2 =
        infV (fun m => (minimax fuel (s.do_move m) true).2) (moves_list s) .pinf := by
      rw [minimax_succ_false fuel s h, minLoop_snd]
    have hmove : (minimax (fuel + 1) s false).1 =
        if infV (fun m => (minimax fuel (s.do_move m) true).2) (moves_list s) .pinf = .pinf
        then none
        else (moves_list s).find? (fun m =>
          decide ((minimax fuel (s.do_move m) true).2 =
            infV (fun m2 => (minimax fuel (s.do_move m2) true).2) (moves_list s) .pinf)) := by
      rw [minimax_succ_false fuel s h, minLoop_fst]
    obtain ⟨n, hn⟩ := infV_num_of_ne_nil (fun m => (minimax fuel (s.do_move m) true).2)
      (moves_list s) (moves_list_ne_nil s h) (fun m _ => minimax_num fuel (s.do_move m) true)
    have hne : infV (fun m => (minimax fuel (s.do_move m) true).2) (moves_list s) .pinf
        ≠ .pinf := by
      rw [hn]
      intro hh
      cases hh
    have hatt : ∃ m ∈ moves_list s, (minimax fuel (s.do_move m) true).2 =
        infV (fun m2 => (minimax fuel (s.do_move m2) true).2) (moves_list s) .pinf := by
      rcases infV_attained (fun m => (minimax fuel (s.do_move m) true).2)
          (moves_list s) .pinf with heq | hex
      · exact absurd heq hne
      · exact hex
    refine ⟨?_, ?_, ?_, ?_⟩
    · rw [hval, hmove, if_neg hne]
    · rw [hval]
      exact hatt
    · rw [hval]
      intro m hm
      exact infV_not_blt_elem (fun m2 => (minimax fuel (s.do_move m2) true).2)
        (moves_list s) .pinf m hm
    · rw [hmove, if_neg hne]
      obtain ⟨m0, hm0, heq⟩ := hatt
      simp only [List.find?_isSome]
      exact ⟨m0, hm0, by simp [heq]⟩

/-- C4 witness: on the board with a lone X at cell 0 and X to move, the
maximizing search returns a move. -/
theorem minimax_selects_first_best_witness :
    ((minimax 9 ⟨1, 0, .X⟩ true).1).isSome = true :=
  ((minimax_selects_first_best 8 ⟨1, 0, .X⟩ (by decide)).1 rfl).2.2.2
